import Mathlib

/-!
The protobuf_tool repository: schema store and gRPC code generation (`app.go`),
and the publish option of the example server (`pb/example_grpc_server.go`)

A shallow embedding of `App.ReadPB`, `App.SavePB`, `App.GenerateGRPC` and
`App.GetCurrentUser`, and of `GetPublishOptionFromMethodName`,
`PublishInterceptor`, `RegisterExampleServiceWithOptions` and
`getMethodNameFromFullMethod`.

* The file system is an explicit value (`FS`): a table from cleaned absolute
  paths to nodes.  The `os` and `path/filepath` calls of the source are
  functions on it.
* The process environment (`Env`) holds what the source reads from outside the
  file system: the working directory, `$HOME` and `exec.LookPath`.
* External processes are an oracle (`Executor`): the k-th process started by a
  call receives the file system it starts in and its command line, and yields
  the file system it leaves, its combined output and its error.  Every process
  started is logged in the `trace` of the call's `Result`.
-/

deriving instance DecidableEq for Except

namespace PbTool

/-! ## Strings and paths -/

/-- A cleaned absolute path, as the list of its components from the root. -/
abbrev Path := List String

/-- Splits a character sequence at every slash. -/
def splitSlash : List Char → List (List Char)
  | [] => [[]]
  | c :: cs =>
    if c = '/' then [] :: splitSlash cs
    else
      match splitSlash cs with
      | [] => [[c]]
      | w :: ws => (c :: w) :: ws

/-- The slash-separated elements of a path string. -/
def components (s : String) : List String :=
  (splitSlash s.data).map String.mk

/-- One step of `filepath.Clean` on an absolute path: empty and `.` elements are
dropped, `..` removes the last component (and is dropped at the root). -/
def cleanStep (st : Path) (c : String) : Path :=
  if c = "" ∨ c = "." then st
  else if c = ".." then st.dropLast
  else st ++ [c]

/-- The call `filepath.Join(base, elems...)` for a cleaned absolute `base`. -/
def Join (base : Path) (elems : List String) : Path :=
  (elems.flatMap components).foldl cleanStep base

/-- The path string of an absolute path (`%s` of the source). -/
def Path.render (p : Path) : String :=
  "/" ++ "/".intercalate p

/-- The call `filepath.Base`. -/
def Base (p : Path) : String :=
  match p.getLast? with
  | some n => n
  | none => "/"

/-- The components of `targ` relative to `base`: the common prefix is dropped and
every remaining component of `base` becomes `..`. -/
def relComps : Path → Path → List String
  | b :: bs, t :: ts =>
    if b = t then relComps bs ts else (b :: bs).map (fun _ => "..") ++ (t :: ts)
  | bs, ts => bs.map (fun _ => "..") ++ ts

/-- The call `filepath.Rel(base, targ)`.  It fails only when one path is absolute
and the other is not; both are absolute here. -/
def Rel (base targ : Path) : Except String String :=
  match relComps base targ with
  | [] => .ok "."
  | r => .ok ("/".intercalate r)

/-- The needle occurs in the text. -/
def contains (text needle : String) : Prop :=
  needle.data <:+: text.data

instance (text needle : String) : Decidable (contains text needle) :=
  inferInstanceAs (Decidable (needle.data <:+: text.data))

/-- The text starts with the given prefix. -/
def startsWith (text pre : String) : Prop :=
  pre.data <+: text.data

instance (text pre : String) : Decidable (startsWith text pre) :=
  inferInstanceAs (Decidable (pre.data <+: text.data))

/-! ## The file system -/

/-- A node of the file system. -/
inductive Node where
  | file (content : String)
  | dir
  deriving DecidableEq, Repr

/-- The size `FileInfo.Size()` reports: the byte length of a file
(the size of a directory is platform dependent; the usual block size is taken). -/
def Node.size : Node → Nat
  | .file c => c.utf8ByteSize
  | .dir => 4096

/-- The error numbers the modelled calls can fail with. -/
inductive Errno where
  | ENOENT
  | ENOTDIR
  | EISDIR
  | ENOTEMPTY
  deriving DecidableEq, Repr

/-- The text of an error number. -/
def Errno.text : Errno → String
  | .ENOENT => "no such file or directory"
  | .ENOTDIR => "not a directory"
  | .EISDIR => "is a directory"
  | .ENOTEMPTY => "directory not empty"

/-- The text `%v` prints for an `*fs.PathError`. -/
def pathError (op : String) (p : Path) (e : Errno) : String :=
  op ++ " " ++ p.render ++ ": " ++ e.text

/-- The call `os.IsNotExist` on the error of a result. -/
def IsNotExist {α : Type} : Except Errno α → Bool
  | .error .ENOENT => true
  | _ => false

/-- A file system state: the table of its nodes.  The first entry for a path is
the node at that path; the root is always a directory. -/
structure FS where
  entries : List (Path × Node)
  deriving DecidableEq, Repr

/-- The node at a path, if any. -/
def FS.get (fs : FS) (p : Path) : Option Node :=
  if p = [] then some .dir
  else (fs.entries.find? (fun e => e.1 = p)).map (fun e => e.2)

/-- Puts a node at a path, replacing what was there. -/
def FS.set (fs : FS) (p : Path) (n : Node) : FS :=
  ⟨(p, n) :: fs.entries.filter (fun e => e.1 ≠ p)⟩

/-- Drops the node at a path. -/
def FS.erase (fs : FS) (p : Path) : FS :=
  ⟨fs.entries.filter (fun e => e.1 ≠ p)⟩

/-- The node is a regular file. -/
def isFile : Option Node → Bool
  | some (.file _) => true
  | _ => false

/-- Some proper prefix of the path is a regular file. -/
def FS.blocked (fs : FS) (p : Path) : Bool :=
  p.inits.any (fun q => decide (q ≠ p) && isFile (fs.get q))

/-- The call `os.Stat`. -/
def FS.Stat (fs : FS) (p : Path) : Except Errno Node :=
  if fs.blocked p then .error .ENOTDIR
  else
    match fs.get p with
    | none => .error .ENOENT
    | some n => .ok n

/-- Creates the directories of the given prefixes, root first. -/
def FS.mkdirs (fs : FS) : List Path → Except String FS
  | [] => .ok fs
  | q :: qs =>
    match fs.get q with
    | some .dir => fs.mkdirs qs
    | some (.file _) => .error (pathError "mkdir" q .ENOTDIR)
    | none => (fs.set q .dir).mkdirs qs

/-- The call `os.MkdirAll`: creates the directory and every missing parent; fails
when a component of the path is a regular file. -/
def FS.MkdirAll (fs : FS) (p : Path) : Except String FS :=
  fs.mkdirs p.inits

/-- The call `os.WriteFile`: creates or truncates the file; the parent must be a
directory and the path must not name a directory.  (Limits of the operating
system, such as the length of a file name, are not modelled.) -/
def FS.WriteFile (fs : FS) (p : Path) (content : String) : Except String FS :=
  match fs.Stat p.dropLast with
  | .error e => .error (pathError "open" p e)
  | .ok (.file _) => .error (pathError "open" p .ENOTDIR)
  | .ok .dir =>
    match fs.get p with
    | some .dir => .error (pathError "open" p .EISDIR)
    | _ => .ok (fs.set p (.file content))

/-- The call `os.ReadFile`. -/
def FS.ReadFile (fs : FS) (p : Path) : Except String String :=
  match fs.Stat p with
  | .error e => .error (pathError "open" p e)
  | .ok .dir => .error (pathError "read" p .EISDIR)
  | .ok (.file c) => .ok c

/-- The order of directory listings: by name. -/
def nameLe (a b : String) : Prop := a.data ≤ b.data

instance : DecidableRel nameLe :=
  fun a b => inferInstanceAs (Decidable (a.data ≤ b.data))

/-- The names of the entries directly below a directory, sorted. -/
def FS.names (fs : FS) (dir : Path) : List String :=
  List.insertionSort nameLe
    (fs.entries.filterMap (fun e =>
      if e.1.dropLast = dir then e.1.getLast? else none)).dedup

/-- The call `os.ReadDir`: the entries of a directory, sorted by name. -/
def FS.ReadDir (fs : FS) (dir : Path) : Except String (List (String × Node)) :=
  match fs.Stat dir with
  | .error e => .error (pathError "open" dir e)
  | .ok (.file _) => .error (pathError "readdirent" dir .ENOTDIR)
  | .ok .dir =>
    .ok ((fs.names dir).filterMap (fun n => (fs.get (dir ++ [n])).map (fun x => (n, x))))

/-- The call `os.Remove`, whose error the source discards: removes a file or an
empty directory and leaves everything else as it is. -/
def FS.Remove (fs : FS) (p : Path) : FS :=
  match fs.Stat p with
  | .ok (.file _) => fs.erase p
  | .ok .dir => if p ≠ [] ∧ fs.names p = [] then fs.erase p else fs
  | .error _ => fs

/-- The call `filepath.Glob(filepath.Join(dir, "*.proto"))`: the entries of the
directory whose name ends in `.proto`, in listing order.  An unreadable directory
gives no match and no error.  The directory part is taken literally: a
directory path with pattern characters (`[`, `*`, `?`, a backslash), which
the library reads as a pattern and may reject as malformed, is not modelled, so
the call never fails here. -/
def FS.Glob (fs : FS) (dir : Path) : Except String (List Path) :=
  match fs.ReadDir dir with
  | .error _ => .ok []
  | .ok es =>
    .ok ((es.filter (fun e => ".proto".data <:+ e.1.data)).map (fun e => dir ++ [e.1]))

/-! ## The environment and external processes -/

/-- What the source reads from outside the file system. -/
structure Env where
  /-- The result of `os.Getwd`. -/
  getwd : Except String Path
  /-- The value of `$HOME` (empty when unset). -/
  home : String
  /-- The call `exec.LookPath`. -/
  lookPath : String → Option String

/-- The path a path string names for a process in working directory `cwd`.  The
string is cleaned lexically: `..` elements are removed without looking at the
directories they pass through. -/
def resolve (cwd : Path) (s : String) : Path :=
  if s.data.head? = some '/' then Join [] [s] else Join cwd [s]

/-- The hard-coded fallback application root of the source. -/
def hardcodedRoot : Path :=
  ["Users", "fangke", "Documents", "project", "golang", "pb-tool", "pb-tool"]

/-- The application root after `os.Getwd` gave `cwd`: the working directory, or
the hard-coded root when `main.go` is not in the working directory. -/
def appRootOf (cwd : Path) (fs : FS) : Path :=
  if IsNotExist (fs.Stat (resolve cwd "main.go")) then hardcodedRoot else cwd

/-- What a finished external process leaves behind. -/
structure ProcResult where
  /-- The file system after the process. -/
  fs : FS
  /-- The combined standard output and standard error. -/
  output : String
  /-- The error of `CombinedOutput`, none on exit status 0. -/
  err : Option String

/-- The external world: the outcome of the k-th process a call starts, from the
file system it starts in, its program and its arguments. -/
abbrev Executor := Nat → FS → String → List String → ProcResult

/-- The text of `cmd.String()`. -/
def cmdString (program : String) (args : List String) : String :=
  " ".intercalate (program :: args)

/-! ## The candidate command lines of `GenerateGRPC` -/

/-- The flag `--go_out=paths=source_relative:<outputDir>`. -/
def goOut (outputDir : String) : String :=
  "--go_out=paths=source_relative:" ++ outputDir

/-- The flag `--go-grpc_out=paths=source_relative:<outputDir>`. -/
def goGrpcOut (outputDir : String) : String :=
  "--go-grpc_out=paths=source_relative:" ++ outputDir

/-- The mapping option `--go_opt=M<file>=.`. -/
def goOpt (file : String) : String :=
  "--go_opt=M" ++ file ++ "=."

/-- The mapping option `--go-grpc_opt=M<file>=.`. -/
def goGrpcOpt (file : String) : String :=
  "--go-grpc_opt=M" ++ file ++ "=."

/-- The arguments of the first approach (simple source_relative). -/
def cmdArgs (outputDir : String) (relPbFiles : List String) : List String :=
  [goOut outputDir, goGrpcOut outputDir] ++ relPbFiles

/-- The arguments of the second approach (with explicit proto_path). -/
def cmdArgs2 (outputDir : String) (relPbFiles : List String) : List String :=
  ["--proto_path=.", goOut outputDir, goGrpcOut outputDir] ++ relPbFiles

/-- The loop of the third approach: two mapping options appended per file. -/
def addMOptions (acc : List String) : List String → List String
  | [] => acc
  | file :: rest => addMOptions ((acc ++ [goOpt file]) ++ [goGrpcOpt file]) rest

/-- The arguments of the third approach (with M option). -/
def cmdArgs3 (outputDir : String) (relPbFiles : List String) : List String :=
  addMOptions [goOut outputDir, goGrpcOut outputDir] relPbFiles ++ relPbFiles

/-- The mapping options of a file list in the order of the files: for every
file the option of `protoc-gen-go`, then the option of `protoc-gen-go-grpc`. -/
def mOptions (files : List String) : List String :=
  files.flatMap (fun f => [goOpt f, goGrpcOpt f])

/-- The three candidate argument lists, in the order they are tried. -/
def candidates (outputDir : String) (relPbFiles : List String) : List (List String) :=
  [cmdArgs outputDir relPbFiles, cmdArgs2 outputDir relPbFiles, cmdArgs3 outputDir relPbFiles]

/-- An argument has the form of a per-file mapping option of one of the two
plugins: `--go_opt=M...=.` or `--go-grpc_opt=M...=.`. -/
def isMappingOption (a : String) : Prop :=
  ("--go_opt=M".data <+: a.data ∨ "--go-grpc_opt=M".data <+: a.data) ∧ "=.".data <:+ a.data

instance (a : String) : Decidable (isMappingOption a) :=
  inferInstanceAs (Decidable ((_ ∨ _) ∧ _))

/-! ## `ReadPB` and `SavePB` -/

/-- The list `"\n  - <name>"` of the names of a listing, after its header. -/
def nameList (header : String) (files : List (String × Node)) : String :=
  files.foldl (fun acc file => acc ++ "\n  - " ++ file.1) header

/-- The list of a listing with the size of every entry, after its header. -/
def sizedList (header : String) (files : List (String × Node)) : String :=
  files.foldl
    (fun acc file => acc ++ "\n  - " ++ file.1 ++ " (size: " ++ toString file.2.size ++ " bytes)")
    header

/-- The method `App.ReadPB`: the content of the schema file, or an error text. -/
def ReadPB (env : Env) (fs : FS) (filename : String) : String :=
  match env.getwd with
  | .error err => "Error getting current directory: " ++ err
  | .ok cwd =>
    let appRoot := appRootOf cwd fs
    let filePath := Join appRoot ["pb", filename]
    match fs.ReadFile filePath with
    | .error err => "Error reading file " ++ filePath.render ++ ": " ++ err
    | .ok content => content

/-- The method `App.SavePB`: the returned text and the file system it leaves. -/
def SavePB (env : Env) (fs : FS) (filename content : String) : String × FS :=
  match env.getwd with
  | .error err => ("Error getting current directory: " ++ err, fs)
  | .ok cwd =>
    let appRoot := appRootOf cwd fs
    let pbDir := Join appRoot ["pb"]
    match fs.MkdirAll pbDir with
    | .error err => ("Error creating pb directory " ++ pbDir.render ++ ": " ++ err, fs)
    | .ok fs1 =>
      let filePath := Join pbDir [filename]
      match fs1.Stat pbDir with
      | .error e =>
        ("Error accessing pb directory " ++ pbDir.render ++ ": " ++ pathError "stat" pbDir e, fs1)
      | .ok _ =>
        match fs1.WriteFile filePath content with
        | .error err => ("Error saving file " ++ filePath.render ++ ": " ++ err, fs1)
        | .ok fs2 =>
          match fs2.Stat filePath with
          | .error e =>
            ("File " ++ filePath.render ++ " was not created successfully: "
              ++ pathError "stat" filePath e, fs2)
          | .ok fileInfo =>
            match fs2.ReadDir pbDir with
            | .error err =>
              ("File saved successfully: " ++ filePath.render ++ "\n"
                ++ "File size: " ++ toString fileInfo.size ++ " bytes\n"
                ++ "Current directory: " ++ appRoot.render ++ "\n"
                ++ "Error listing pb directory: " ++ err, fs2)
            | .ok pbFiles =>
              ("File saved successfully: " ++ filePath.render ++ "\n"
                ++ "File size: " ++ toString fileInfo.size ++ " bytes\n"
                ++ "Current directory: " ++ appRoot.render ++ "\n"
                ++ nameList "Files in pb directory:" pbFiles, fs2)

/-- A schema file name: one path element (no slash) that ends in `.proto`. -/
def validSchemaName (name : String) : Prop :=
  '/' ∉ name.data ∧ ".proto".data <:+ name.data

instance (name : String) : Decidable (validSchemaName name) :=
  inferInstanceAs (Decidable (_ ∧ _))

/-- Every node below the root has a directory as its parent, and so on up. -/
def FS.WellFormed (fs : FS) : Prop :=
  ∀ e ∈ fs.entries, ∀ q ∈ e.1.inits, fs.get q = some .dir ∨ q = e.1

instance (fs : FS) : Decidable fs.WellFormed :=
  inferInstanceAs (Decidable (∀ e ∈ fs.entries, ∀ q ∈ e.1.inits, _))

/-! ## `GenerateGRPC` -/

/-- Which command line of `GenerateGRPC` a process was started with. -/
inductive Approach where
  | simple
  | protoPath
  | mOption
  | gateway
  deriving DecidableEq, Repr

/-- One started process: `exec.Command(program, args...)`. -/
structure Invocation where
  approach : Approach
  program : String
  args : List String
  deriving DecidableEq, Repr

/-- What a call of `GenerateGRPC` returns and leaves: the returned text, the file
system after the call, and the processes it started, in order. -/
structure Result where
  report : String
  fs : FS
  trace : List Invocation
  deriving DecidableEq, Repr

/-- The state after the schema is saved and the output directory exists
(source lines 263-289). -/
structure Saved where
  cwd : Path
  appRoot : Path
  filePath : Path
  outputDir : Path
  fs : FS
  deriving DecidableEq, Repr

/-- Saves the schema file and creates the output directory (source lines 263-289). -/
def saveSchema (env : Env) (fs : FS) (filename content : String) : Except Result Saved :=
  match env.getwd with
  | .error err => .error ⟨"Error getting current directory: " ++ err, fs, []⟩
  | .ok cwd =>
    let appRoot := appRootOf cwd fs
    let pbDir := Join appRoot ["pb"]
    match fs.MkdirAll pbDir with
    | .error err =>
      .error ⟨"Error creating pb directory " ++ pbDir.render ++ ": " ++ err, fs, []⟩
    | .ok fs1 =>
      let filePath := Join pbDir [filename]
      match fs1.WriteFile filePath content with
      | .error err =>
        .error ⟨"Error saving file " ++ filePath.render ++ ": " ++ err, fs1, []⟩
      | .ok fs2 =>
        let outputDir := Join appRoot ["grpc_output"]
        match fs2.MkdirAll outputDir with
        | .error err =>
          .error ⟨"Error creating output directory " ++ outputDir.render ++ ": " ++ err, fs2, []⟩
        | .ok fs3 => .ok ⟨cwd, appRoot, filePath, outputDir, fs3⟩

/-- The text returned when no compiler is found. -/
def protocNotFound (filePath absProtocPath : String) : String :=
  "File saved successfully: " ++ filePath ++ "\n"
    ++ "Note: protoc compiler not found. GRPC code generation skipped.\n"
    ++ "Local protoc: " ++ absProtocPath ++ " (not found)\n"
    ++ "To enable GRPC code generation, please install protoc and try again.\n"
    ++ "For macOS: brew install protobuf\n"
    ++ "For Ubuntu: apt install -y protobuf-compiler\n"
    ++ "For Windows: Download from https://github.com/protocolbuffers/protobuf/releases"

/-- The text returned when the plugin `protoc-gen-go` is not found. -/
def genGoNotFound (filePath protocGenGoPath : String) : String :=
  "File saved successfully: " ++ filePath ++ "\n"
    ++ "Warning: protoc-gen-go plugin not found at " ++ protocGenGoPath ++ "\n"
    ++ "Please install it with: go install google.golang.org/protobuf/cmd/protoc-gen-go@latest"

/-- The text returned when the plugin `protoc-gen-go-grpc` is not found. -/
def genGoGrpcNotFound (filePath protocGenGoGrpcPath : String) : String :=
  "File saved successfully: " ++ filePath ++ "\n"
    ++ "Warning: protoc-gen-go-grpc plugin not found at " ++ protocGenGoGrpcPath ++ "\n"
    ++ "Please install it with: go install google.golang.org/grpc/cmd/protoc-gen-go-grpc@latest"

/-- The resolved tools (source lines 291-333). -/
structure Tools where
  protocPath : String
  protocGenGoPath : String
  protocGenGoGrpcPath : String
  deriving DecidableEq, Repr

/-- The compiler: the project-local `bin/protoc` if `os.Stat` does not report it
missing, else the `protoc` on the search path, else none (source lines 291-310). -/
def resolveProtoc (env : Env) (s : Saved) : Option String :=
  if IsNotExist (s.fs.Stat (Join s.appRoot ["bin", "protoc"])) then env.lookPath "protoc"
  else some (Join s.appRoot ["bin", "protoc"]).render

/-- The path string of a plugin below `$HOME/go/bin`, after `os.ExpandEnv`. -/
def pluginPath (env : Env) (plugin : String) : String :=
  env.home ++ "/go/bin/" ++ plugin

/-- A plugin is absent: `os.Stat` of its path fails. -/
def pluginAbsent (env : Env) (s : Saved) (plugin : String) : Bool :=
  match s.fs.Stat (resolve s.cwd (pluginPath env plugin)) with
  | .error _ => true
  | .ok _ => false

/-- Resolves the compiler and the two required plugins; the error is the text
`GenerateGRPC` returns when one is not found (source lines 291-333). -/
def resolveTools (env : Env) (s : Saved) : Except String Tools :=
  match resolveProtoc env s with
  | none =>
    .error (protocNotFound s.filePath.render (Join s.appRoot ["bin", "protoc"]).render)
  | some protocPath =>
    if pluginAbsent env s "protoc-gen-go" then
      .error (genGoNotFound s.filePath.render (pluginPath env "protoc-gen-go"))
    else if pluginAbsent env s "protoc-gen-go-grpc" then
      .error (genGoGrpcNotFound s.filePath.render (pluginPath env "protoc-gen-go-grpc"))
    else
      .ok ⟨protocPath, pluginPath env "protoc-gen-go", pluginPath env "protoc-gen-go-grpc"⟩

/-- The temporary script that sets the search paths and runs the compiler. -/
def tempScript (appRoot protocPath : String) : String :=
  "#!/bin/bash\nset -e\n\n# Add go/bin to PATH\nexport PATH=\"$HOME/go/bin:$PATH\"\n\n"
    ++ "# Set PROTOC_INCLUDE with all necessary paths\n# 1. Local include directory\n"
    ++ "# 2. Google APIs from grpc-gateway\n"
    ++ "# 3. System protoc include directory (for descriptor.proto)\n"
    ++ "export PROTOC_INCLUDE=\"" ++ appRoot
    ++ "/include:/Users/fangke/go/pkg/mod/github.com/grpc-ecosystem/grpc-gateway@v1.16.0/third_party/googleapis:/opt/homebrew/include\"\n\n"
    ++ "# Change to application root directory\ncd \"" ++ appRoot ++ "\"\n\n"
    ++ "# Run protoc with the given arguments\n\"" ++ protocPath
    ++ "\" --proto_path=\".:$\x7bPROTOC_INCLUDE\x7d\" \"$@\"\n"

/-- The state in which the approaches are run (source lines 335-431). -/
structure Setup where
  appRoot : Path
  filePath : Path
  outputDir : Path
  scriptPath : Path
  fs : FS
  debugInfo : String
  grpcGatewayEnabled : Bool
  relPbPath : String
  relPbFiles : List String
  deriving DecidableEq, Repr

/-- The first lines of the debug information (source lines 363-371). -/
def debugHeader (s : Saved) (t : Tools) (scriptPath : Path) : String :=
  "\nDebug Information:\n"
    ++ "App Root: " ++ s.appRoot.render ++ "\n"
    ++ "PB File Path: " ++ s.filePath.render ++ "\n"
    ++ "Output Directory: " ++ s.outputDir.render ++ "\n"
    ++ "Protoc Path: " ++ t.protocPath ++ "\n"
    ++ "Script Path: " ++ scriptPath.render ++ "\n"
    ++ "Protoc Gen Go Path: " ++ t.protocGenGoPath ++ "\n"
    ++ "Protoc Gen Go GRPC Path: " ++ t.protocGenGoGrpcPath ++ "\n"

/-- The note added when the gateway plugin is not found (source line 379). -/
def gatewaySkipNote (env : Env) : String :=
  "\ngRPC Gateway plugin not found at " ++ pluginPath env "protoc-gen-grpc-gateway"
    ++ ", skipping gateway generation"

/-- The path of a file relative to the application root, with the fall-back of
the source to the bare file name. -/
def relOrBase (appRoot file : Path) : String :=
  match Rel appRoot file with
  | .ok rel => rel
  | .error _ => Base file

/-- The debug information after the check for the gateway plugin
(source lines 373-380). -/
def gatewayDebug (env : Env) (debugInfo : String) (grpcGatewayEnabled : Bool) : String :=
  if grpcGatewayEnabled then debugInfo else debugInfo ++ gatewaySkipNote env

/-- The write test of the output directory (source lines 382-389): the file
system and the debug information after it. -/
def testOutputDir (fs : FS) (outputDir : Path) (debugInfo : String) : FS × String :=
  let testFile := Join outputDir ["test.txt"]
  match fs.WriteFile testFile "test" with
  | .error err => (fs, debugInfo ++ "\nError writing test file to output directory: " ++ err)
  | .ok fs2 =>
    (fs2.Remove testFile, debugInfo ++ "\nSuccessfully wrote test file to output directory")

/-- The debug information after the listing of the output directory before
generation (source lines 391-400). -/
def beforeList (fs : FS) (outputDir : Path) (debugInfo : String) : String :=
  match fs.ReadDir outputDir with
  | .ok beforeFiles =>
    nameList (debugInfo ++ "\nFiles in output directory before generation:") beforeFiles
  | .error err => debugInfo ++ "\nError listing output directory before generation: " ++ err

/-- Everything `GenerateGRPC` does between the tool checks and the first
approach (source lines 335-431), after `saveSchema` and `resolveTools`. -/
def prepare (env : Env) (s : Saved) (t : Tools) : Except Result Setup :=
  let scriptPath := Join s.appRoot ["run_protoc.sh"]
  match s.fs.WriteFile scriptPath (tempScript s.appRoot.render t.protocPath) with
  | .error err =>
    .error ⟨"File saved successfully: " ++ s.filePath.render ++ "\n"
      ++ "Warning: Error creating temporary script " ++ scriptPath.render ++ ": " ++ err,
      s.fs, []⟩
  | .ok fs1 =>
    let grpcGatewayEnabled := !pluginAbsent env { s with fs := fs1 } "protoc-gen-grpc-gateway"
    let debug1 := gatewayDebug env (debugHeader s t scriptPath) grpcGatewayEnabled
    let tested := testOutputDir fs1 s.outputDir debug1
    let debug3 := beforeList tested.1 s.outputDir tested.2
    let relPbPath := relOrBase s.appRoot s.filePath
    match tested.1.Glob (Join s.appRoot ["pb"]) with
    | .error err =>
      .error ⟨"Error finding proto files: " ++ err ++ "\n"
        ++ (debug3 ++ "\nError finding proto files: " ++ err), tested.1.Remove scriptPath, []⟩
    | .ok pbFiles =>
      .ok ⟨s.appRoot, s.filePath, s.outputDir, scriptPath, tested.1, debug3, grpcGatewayEnabled,
        relPbPath, pbFiles.map (relOrBase s.appRoot)⟩

/-- Everything `GenerateGRPC` does before the first approach (source lines
263-431): the early return, or the state the approaches start in. -/
def setup (env : Env) (fs : FS) (filename content : String) : Except Result Setup :=
  match saveSchema env fs filename content with
  | .error r => .error r
  | .ok s =>
    match resolveTools env s with
    | .error text => .error ⟨text, s.fs, []⟩
    | .ok t => prepare env s t

/-- The line an approach adds to the debug information after it ran. -/
def approachNote (err : Option String) (output : String) : String :=
  match err with
  | none => "\n✅ Approach succeeded! Output: " ++ output
  | some e => "\n❌ Approach failed with error: " ++ e ++ "\nOutput: " ++ output

/-- The function-level variables of `GenerateGRPC` while the approaches run. -/
structure Progress where
  fs : FS
  debugInfo : String
  finalErr : Option String
  finalOutput : String
  finalCmdString : String
  trace : List Invocation
  deriving DecidableEq, Repr

/-- Runs one approach as the next process and records it in the variables. -/
def runApproach (exec : Executor) (s : Setup) (p : Progress) (a : Approach) (title : String)
    (args : List String) : Progress :=
  let r := exec p.trace.length p.fs s.scriptPath.render args
  { fs := r.fs
    debugInfo := p.debugInfo ++ ("\nTrying approach: " ++ title) ++ approachNote r.err r.output
    finalErr := r.err
    finalOutput := r.output
    finalCmdString := cmdString s.scriptPath.render args
    trace := p.trace ++ [⟨a, s.scriptPath.render, args⟩] }

/-- The variables before the first approach. -/
def Setup.start (s : Setup) : Progress :=
  ⟨s.fs, s.debugInfo, none, "", "", []⟩

/-- The first approach, run unconditionally (source lines 433-455). -/
def firstApproach (exec : Executor) (s : Setup) : Progress :=
  runApproach exec s s.start .simple "Simple source_relative"
    (cmdArgs s.outputDir.render s.relPbFiles)

/-- The second approach, run if the first failed (source lines 457-479). -/
def secondApproach (exec : Executor) (s : Setup) (p : Progress) : Progress :=
  match p.finalErr with
  | none => p
  | some _ =>
    runApproach exec s p .protoPath "With explicit proto_path"
      (cmdArgs2 s.outputDir.render s.relPbFiles)

/-- The third approach, run if the last approach run failed (source lines 481-507). -/
def thirdApproach (exec : Executor) (s : Setup) (p : Progress) : Progress :=
  match p.finalErr with
  | none => p
  | some _ =>
    runApproach exec s p .mOption "With M option"
      (cmdArgs3 s.outputDir.render s.relPbFiles)

/-- The three approaches in sequence (source lines 433-507). -/
def runApproaches (exec : Executor) (s : Setup) : Progress :=
  thirdApproach exec s (secondApproach exec s (firstApproach exec s))

/-- The text returned when every approach failed (source lines 509-516). -/
def failureReport (filePath : String) (finalErr finalOutput finalCmdString debugInfo : String) :
    String :=
  "File saved successfully: " ++ filePath ++ "\n"
    ++ "Warning: Error generating GRPC code: " ++ finalErr ++ "\n"
    ++ "Output: " ++ finalOutput ++ "\n"
    ++ "Command: " ++ finalCmdString ++ "\n"
    ++ debugInfo

/-- The text returned when an approach succeeded (source lines 572-575). -/
def successReport (filePath outputDir finalOutput debugInfo fileList : String) : String :=
  "File saved successfully: " ++ filePath ++ "\n"
    ++ "GRPC code generated successfully! Output saved to " ++ outputDir ++ " directory\n"
    ++ "Output: " ++ finalOutput ++ "\n"
    ++ debugInfo ++ fileList

/-- The arguments of the gateway pass (source lines 542-547). -/
def gatewayCmdArgs (gatewayOutputDir relPbPath : String) : List String :=
  ["--grpc-gateway_out=paths=source_relative:" ++ gatewayOutputDir,
    "--grpc-gateway_opt=grpc_api_configuration=gateway.yaml",
    "--grpc-gateway_opt=allow_delete_body=true",
    relPbPath]

/-- The outcome of the first approach: the first process of the call. -/
def outcome1 (exec : Executor) (s : Setup) : ProcResult :=
  exec 0 s.fs s.scriptPath.render (cmdArgs s.outputDir.render s.relPbFiles)

/-- The outcome of the second approach, as the process after the first. -/
def outcome2 (exec : Executor) (s : Setup) : ProcResult :=
  exec 1 (outcome1 exec s).fs s.scriptPath.render (cmdArgs2 s.outputDir.render s.relPbFiles)

/-- The outcome of the third approach, as the process after the second. -/
def outcome3 (exec : Executor) (s : Setup) : ProcResult :=
  exec 2 (outcome2 exec s).fs s.scriptPath.render (cmdArgs3 s.outputDir.render s.relPbFiles)

/-- The process an approach is run as. -/
def invocation (s : Setup) : Approach → Invocation
  | .simple => ⟨.simple, s.scriptPath.render, cmdArgs s.outputDir.render s.relPbFiles⟩
  | .protoPath => ⟨.protoPath, s.scriptPath.render, cmdArgs2 s.outputDir.render s.relPbFiles⟩
  | .mOption => ⟨.mOption, s.scriptPath.render, cmdArgs3 s.outputDir.render s.relPbFiles⟩
  | .gateway => ⟨.gateway, s.scriptPath.render, gatewayCmdArgs s.outputDir.render s.relPbPath⟩

/-- The listing of the output directory after generation (source lines 518-532). -/
def afterList (fs : FS) (outputDir : Path) : String :=
  match fs.ReadDir outputDir with
  | .ok afterFiles => sizedList "\nFiles in grpc_output directory after generation:" afterFiles
  | .error err => "\nError listing output directory after generation: " ++ err

/-- The lines the gateway pass adds to the debug information. -/
def gatewayNote (err : Option String) (output : String) : String :=
  match err with
  | none => "\n✅ gRPC Gateway code generated successfully! Output: " ++ output
  | some e =>
    "\n⚠️  gRPC Gateway code generation failed: " ++ e ++ "\nOutput: " ++ output
      ++ "\nNote: gRPC Gateway requires proper proto annotations and gateway.yaml configuration"

/-- The entries of the output directory after the gateway pass; a failed listing
gives none (its error is discarded by the source). -/
def gatewayFiles (fs : FS) (dir : Path) : List (String × Node) :=
  match fs.ReadDir dir with
  | .ok files => files
  | .error _ => []

/-- The end of `GenerateGRPC` after the approaches (source lines 509-575). -/
def finish (exec : Executor) (s : Setup) (p : Progress) : Result :=
  match p.finalErr with
  | some finalErr =>
    ⟨failureReport s.filePath.render finalErr p.finalOutput p.finalCmdString p.debugInfo,
      p.fs, p.trace⟩
  | none =>
    let fileList := afterList p.fs s.outputDir
    if s.grpcGatewayEnabled then
      let debug1 := p.debugInfo ++ "\n\n🔄 Generating gRPC Gateway code..."
      let args := gatewayCmdArgs s.outputDir.render s.relPbPath
      let g := exec p.trace.length p.fs s.scriptPath.render args
      let trace := p.trace ++ [⟨.gateway, s.scriptPath.render, args⟩]
      match g.err with
      | none =>
        ⟨successReport s.filePath.render s.outputDir.render p.finalOutput
            (debug1 ++ gatewayNote none g.output)
            (sizedList (fileList ++ "\n\nFiles after gRPC Gateway generation:")
              (gatewayFiles g.fs s.outputDir)),
          g.fs, trace⟩
      | some gatewayErr =>
        ⟨successReport s.filePath.render s.outputDir.render p.finalOutput
            (debug1 ++ gatewayNote (some gatewayErr) g.output) fileList,
          g.fs, trace⟩
    else
      ⟨successReport s.filePath.render s.outputDir.render p.finalOutput p.debugInfo fileList,
        p.fs, p.trace⟩

/-- The method `App.GenerateGRPC`.  The deferred `os.Remove(scriptPath)` runs on
every return after the script was written. -/
def GenerateGRPC (env : Env) (exec : Executor) (fs : FS) (filename content : String) : Result :=
  match setup env fs filename content with
  | .error r => r
  | .ok s =>
    let r := finish exec s (runApproaches exec s)
    { r with fs := r.fs.Remove s.scriptPath }

/-- The report records an attempt: it contains the line the approach added to
the debug information, so its combined output and, if it failed, its error. -/
def recorded (report : String) (r : ProcResult) : Prop :=
  contains report (approachNote r.err r.output)
    ∧ contains report r.output
    ∧ ∀ e, r.err = some e → contains report e

/-- How the report of a failed generation starts. -/
def failurePrefix (filePath : String) : String :=
  "File saved successfully: " ++ filePath ++ "\n" ++ "Warning: Error generating GRPC code: "

/-- How the report of a successful generation starts. -/
def successPrefix (filePath : String) : String :=
  "File saved successfully: " ++ filePath ++ "\n"
    ++ "GRPC code generated successfully! Output saved to "

/-- The processes of the three approaches among the started processes. -/
def primary (trace : List Invocation) : List Invocation :=
  trace.filter (fun i => i.approach ≠ .gateway)

/-! ## A sample installation -/

/-- A project in `/app` with the compiler and the two required plugins, and no
gateway plugin. -/
def demoFS : FS :=
  ⟨[(["app"], .dir), (["app", "main.go"], .file "package main"),
    (["app", "bin"], .dir), (["app", "bin", "protoc"], .file "protoc"),
    (["home"], .dir), (["home", "u"], .dir), (["home", "u", "go"], .dir),
    (["home", "u", "go", "bin"], .dir),
    (["home", "u", "go", "bin", "protoc-gen-go"], .file "plugin"),
    (["home", "u", "go", "bin", "protoc-gen-go-grpc"], .file "plugin")]⟩

/-- The same project without any tool installed. -/
def bareFS : FS :=
  ⟨[(["app"], .dir), (["app", "main.go"], .file "package main")]⟩

/-- The process runs in `/app`; no `protoc` is on the search path. -/
def demoEnv : Env :=
  ⟨.ok ["app"], "/home/u", fun _ => none⟩

/-- The first two processes fail, the third succeeds and writes a file. -/
def demoExec : Executor := fun k fs _ _ =>
  if k = 2 then ⟨fs.set ["app", "grpc_output", "a.pb.go"] (.file "package pb"), "", none⟩
  else ⟨fs, "import not found", some "exit status 1"⟩

/-- The state in which the approaches start in the sample installation. -/
def demoSetup : Setup :=
  match setup demoEnv demoFS "a.proto" "package demo;" with
  | .ok s => s
  | .error _ => ⟨[], [], [], [], ⟨[]⟩, "", false, "", []⟩

/-- The state after the schema is saved in the project without tools. -/
def bareSaved : Saved :=
  match saveSchema demoEnv bareFS "a.proto" "package demo;" with
  | .ok s => s
  | .error _ => ⟨[], [], [], [], ⟨[]⟩⟩


/-! ## The publish option of a method (`pb/example_grpc_server.go`)

Console output (`fmt.Printf`) is part of the results as the printed text.  The
generated package (`File_example_proto`, `ExampleService_ServiceDesc`,
`RegisterExampleServiceServer`) is a parameter of the functions that use it. -/

/-- The options of a method: what `proto.GetExtension(methodOpts, E_Publish)`
returns, none for nil. -/
structure MethodOptions where
  publish : Option Bool
  deriving DecidableEq, Repr

/-- A method of a service in the file descriptor: its name and what `Options()`
returns, none for nil. -/
structure MethodDescriptor where
  name : String
  options : Option MethodOptions
  deriving DecidableEq, Repr

/-- A service of the file descriptor. -/
structure ServiceDescriptor where
  name : String
  methods : List MethodDescriptor
  deriving DecidableEq, Repr

/-- The file descriptor `File_example_proto`: its services in order. -/
structure FileDescriptor where
  services : List ServiceDescriptor
  deriving DecidableEq, Repr

/-- The loop over the methods of a service (source lines 154-178): the value
returned and the text printed if the loop returns, none if it ends. -/
def methodsLoop (methodName : String) : List MethodDescriptor → Option (Bool × String)
  | [] => none
  | protoMethod :: rest =>
    if protoMethod.name ≠ methodName then methodsLoop methodName rest
    else
      match protoMethod.options with
      | none => some (true, "警告: 方法 " ++ methodName ++ " 未找到选项，使用默认值 true\n")
      | some methodOpts =>
        match methodOpts.publish with
        | none =>
          some (true, "警告: 方法 " ++ methodName ++ " 未找到publish选项，使用默认值 true\n")
        | some publishValue => some (publishValue, "")

/-- The loop over the services (source lines 146-179): services not named
`ExampleService` are skipped. -/
def servicesLoop (methodName : String) : List ServiceDescriptor → Option (Bool × String)
  | [] => none
  | service :: rest =>
    if service.name ≠ "ExampleService" then servicesLoop methodName rest
    else
      match methodsLoop methodName service.methods with
      | some r => some r
      | none => servicesLoop methodName rest

/-- The function `GetPublishOptionFromMethodName`: the publish value and the
text printed.  The file descriptor is none when `File_example_proto` is nil. -/
def GetPublishOptionFromMethodName (fileDesc : Option FileDescriptor) (methodName : String) :
    Bool × String :=
  match fileDesc with
  | none => (true, "警告: 未找到文件描述符，方法 " ++ methodName ++ " 使用默认值 true\n")
  | some fd =>
    match servicesLoop methodName fd.services with
    | some r => r
    | none => (true, "警告: 未找到方法 " ++ methodName ++ "，使用默认值 true\n")

/-- The loop of `getMethodNameFromFullMethod` with the positions below `n` still
to look at, from the last one down (a slash is one byte, so positions are counted
in characters). -/
def scanSlash (fullMethod : List Char) : Nat → List Char
  | 0 => fullMethod
  | i + 1 =>
    if fullMethod[i]? = some '/' then fullMethod.drop (i + 1)
    else scanSlash fullMethod i

/-- The function `getMethodNameFromFullMethod`. -/
def getMethodNameFromFullMethod (fullMethod : String) : String :=
  String.mk (scanSlash fullMethod.data fullMethod.data.length)

/-- The metadata of a request: its keys with their values (a key of incoming
metadata always has a value list, never nil). -/
abbrev MD := List (String × List String)

/-- The call `md.Get(k)` for a lower-case key: the values of the key, none (nil)
if the metadata has no such key. -/
def metadataGet (md : MD) (k : String) : Option (List String) :=
  (md.find? (fun e => e.1 = k)).map (fun e => e.2)

/-- A request context: the incoming metadata, if it carries any. -/
structure Context where
  incoming : Option MD
  deriving DecidableEq, Repr

/-- A gRPC status error. -/
structure Status where
  code : Nat
  message : String
  deriving DecidableEq, Repr

/-- The code `codes.PermissionDenied`. -/
def PermissionDenied : Nat := 7

/-- The argument `info` of an interceptor. -/
structure UnaryServerInfo where
  FullMethod : String
  deriving DecidableEq, Repr

/-- A unary handler: the response (none for nil) and the error it returns. -/
abbrev UnaryHandler (Req Resp : Type) := Context → Req → Option Resp × Option Status

/-- What a call of the interceptor returns and does: response and error, the
calls of the handler it made, and the text it printed. -/
structure Intercepted (Req Resp : Type) where
  resp : Option Resp
  err : Option Status
  handled : List (Context × Req)
  out : String

/-- The request is an internal one: `md.Get("x-internal-service") != nil` on
the incoming metadata, or on the empty metadata if there is none. -/
def isInternal (ctx : Context) : Bool :=
  (metadataGet (match ctx.incoming with
    | some md => md
    | none => []) "x-internal-service").isSome

/-- The interceptor returned by `PublishInterceptor`. -/
def PublishInterceptor {Req Resp : Type} (fileDesc : Option FileDescriptor) (ctx : Context)
    (req : Req) (info : UnaryServerInfo) (handler : UnaryHandler Req Resp) :
    Intercepted Req Resp :=
  let publish :=
    GetPublishOptionFromMethodName fileDesc (getMethodNameFromFullMethod info.FullMethod)
  let out := "拦截请求: " ++ info.FullMethod ++ "\n" ++ publish.2
  if isInternal ctx && !publish.1 then
    ⟨none, some ⟨PermissionDenied, "该接口不允许内部服务请求"⟩, [],
      out ++ "拒绝内部服务请求: " ++ info.FullMethod ++ " (publish=false)\n"⟩
  else
    ⟨(handler ctx req).1, (handler ctx req).2, [(ctx, req)], out⟩

/-- The options of the registration. -/
structure ServerOptions where
  PublishOnly : Bool
  deriving DecidableEq, Repr

/-- An option of `RegisterExampleServiceWithOptions`. -/
abbrev CustomServerOption := ServerOptions → ServerOptions

/-- The option `WithPublishOnly`. -/
def WithPublishOnly (publishOnly : Bool) : CustomServerOption :=
  fun opts => { opts with PublishOnly := publishOnly }

/-- The service description `ExampleService_ServiceDesc`: the service name and
the names of its methods. -/
structure ServiceDesc where
  ServiceName : String
  Methods : List String
  deriving DecidableEq, Repr

/-- The full name `/<service>/<method>` of a method. -/
def fullMethodName (serviceDesc : ServiceDesc) (methodName : String) : String :=
  "/" ++ serviceDesc.ServiceName ++ "/" ++ methodName

/-- The loop over the methods of the service description when `PublishOnly` is
set (source lines 107-128): it prints, and nothing else. -/
def checkMethods (fileDesc : Option FileDescriptor) (serviceDesc : ServiceDesc) :
    List String → String
  | [] => ""
  | methodName :: rest =>
    let publish := GetPublishOptionFromMethodName fileDesc methodName
    "检查方法: " ++ fullMethodName serviceDesc methodName ++ "\n" ++ publish.2
      ++ (if publish.1 then
            "✓ 方法 " ++ fullMethodName serviceDesc methodName ++ " 的 publish=true，允许注册\n"
          else
            "✗ 方法 " ++ fullMethodName serviceDesc methodName ++ " 的 publish=false，跳过注册\n")
      ++ checkMethods fileDesc serviceDesc rest

/-- The function `RegisterExampleServiceWithOptions`: the server after the call
and the text printed.  The generated `RegisterExampleServiceServer` is the
parameter `registerExampleServiceServer`. -/
def RegisterExampleServiceWithOptions {Server Srv : Type}
    (registerExampleServiceServer : Server → Srv → Server)
    (fileDesc : Option FileDescriptor) (serviceDesc : ServiceDesc)
    (s : Server) (srv : Srv) (opts : List CustomServerOption) : Server × String :=
  let serverOpts := opts.foldl (fun o opt => opt o) (⟨false⟩ : ServerOptions)
  let out :=
    if serverOpts.PublishOnly then
      "注册服务：只注册 publish=true 的方法\n" ++ checkMethods fileDesc serviceDesc serviceDesc.Methods
    else ""
  (registerExampleServiceServer s srv, out ++ "服务注册完成！\n")

/-- The registration of a service description with a gRPC server given by the
full names of its registered methods, as `s.RegisterService(&desc, srv)` does
it: every method of the description is registered. -/
def registerService (serviceDesc : ServiceDesc) (s : List String) : List String :=
  s ++ serviceDesc.Methods.map (fullMethodName serviceDesc)

/-- The service `ExampleService` with its five methods and the publish values the
table test expects. -/
def exampleService : ServiceDescriptor :=
  ⟨"ExampleService",
    [⟨"GetExample", some ⟨some true⟩⟩, ⟨"CreateExample", some ⟨some false⟩⟩,
      ⟨"UpdateExample", some ⟨some true⟩⟩, ⟨"DeleteExample", some ⟨some false⟩⟩,
      ⟨"ListExamples", some ⟨some true⟩⟩]⟩

/-- A file descriptor with the service `ExampleService` of the table test. -/
def exampleDescriptor : FileDescriptor :=
  ⟨[exampleService]⟩

/-- The service description that goes with `exampleDescriptor`. -/
def exampleServiceDesc : ServiceDesc :=
  ⟨"example.ExampleService",
    ["GetExample", "CreateExample", "UpdateExample", "DeleteExample", "ListExamples"]⟩

/-! ## Users and sessions (`app.go`) -/

/-- A user of the system; times are instants on the time line. -/
structure User where
  ID : String
  Username : String
  Email : String
  Password : String
  CreatedAt : Int
  UpdatedAt : Int
  deriving DecidableEq, Repr

/-- A user session. -/
structure Session where
  UserID : String
  Token : String
  ExpiresAt : Int
  deriving DecidableEq, Repr

/-- The fields of `App` the session methods use: the two maps and the path of
the session file. -/
structure App where
  users : List (String × User)
  sessions : List (String × Session)
  sessionDataFile : Path
  deriving DecidableEq, Repr

/-- The map lookup `m[key]`: the value of the key, if the map has it. -/
def mapGet {α : Type} (m : List (String × α)) (key : String) : Option α :=
  (m.find? (fun e => e.1 = key)).map (fun e => e.2)

/-- The call `delete(m, key)`. -/
def mapDelete {α : Type} (m : List (String × α)) (key : String) : List (String × α) :=
  m.filter (fun e => e.1 ≠ key)

/-- The method `saveSessionData`: the file system after it and the text
printed.  The JSON encoding of the session map (`json.MarshalIndent`) is the
parameter `marshal`. -/
def saveSessionData (marshal : List (String × Session) → Except String String) (a : App)
    (fs : FS) : FS × String :=
  match marshal a.sessions with
  | .error err => (fs, "Error marshaling session data: " ++ err ++ "\n")
  | .ok content =>
    match fs.WriteFile a.sessionDataFile content with
    | .error err => (fs, "Error writing session data file: " ++ err ++ "\n")
    | .ok fs1 => (fs1, "")

/-- What a session method returns and leaves. -/
structure Answer where
  text : String
  app : App
  fs : FS
  out : String
  deriving DecidableEq, Repr

/-- The text of the success response of `GetCurrentUser`. -/
def userInfo (id username email : String) : String :=
  "\x7b\"success\":true,\"user\":\x7b\"id\":\"" ++ id ++ "\",\"username\":\"" ++ username
    ++ "\",\"email\":\"" ++ email ++ "\"\x7d\x7d"

/-- The method `App.GetCurrentUser` at the instant `now` (`time.Now()`). -/
def GetCurrentUser (marshal : List (String × Session) → Except String String) (a : App)
    (fs : FS) (now : Int) (token : String) : Answer :=
  match mapGet a.sessions token with
  | none => ⟨"\x7b\"error\":\"Invalid session\"\x7d", a, fs, ""⟩
  | some session =>
    if now > session.ExpiresAt then
      let a1 := { a with sessions := mapDelete a.sessions token }
      let saved := saveSessionData marshal a1 fs
      ⟨"\x7b\"error\":\"Session expired\"\x7d", a1, saved.1, saved.2⟩
    else
      match mapGet a.users session.UserID with
      | none => ⟨"\x7b\"error\":\"User not found\"\x7d", a, fs, ""⟩
      | some user => ⟨userInfo user.ID user.Username user.Email, a, fs, ""⟩

/-- A state with one user and two sessions that expire at 100 and at 200. -/
def demoApp : App :=
  ⟨[("u1", ⟨"u1", "ann", "ann@example.org", "hash", 0, 0⟩)],
    [("t1", ⟨"u1", "t1", 100⟩), ("t2", ⟨"u1", "t2", 200⟩)],
    ["app", "data", "sessions.json"]⟩

/-- An encoder for the sample state: the tokens of the sessions. -/
def demoMarshal (sessions : List (String × Session)) : Except String String :=
  .ok (", ".intercalate (sessions.map (fun e => e.1)))

/-- A file system that holds just the directory `pb` of the hard-coded root, with
the directories above it. -/
def pbDirFS : FS :=
  ⟨((hardcodedRoot ++ ["pb"]).inits.tail).map (fun p => (p, Node.dir))⟩

/-- The process runs in the directory `pb` of the hard-coded root. -/
def pbDirEnv : Env :=
  ⟨.ok (hardcodedRoot ++ ["pb"]), "/home/u", fun _ => none⟩

/-- A project in `/app` in which `bin` is a regular file, so that there is no
`bin/protoc`; the two required plugins are installed. -/
def binFileFS : FS :=
  ⟨[(["app"], .dir), (["app", "main.go"], .file "package main"),
    (["app", "bin"], .file "not a directory"),
    (["home"], .dir), (["home", "u"], .dir), (["home", "u", "go"], .dir),
    (["home", "u", "go", "bin"], .dir),
    (["home", "u", "go", "bin", "protoc-gen-go"], .file "plugin"),
    (["home", "u", "go", "bin", "protoc-gen-go-grpc"], .file "plugin")]⟩

/-- Every process fails, as the script does when the compiler cannot be run. -/
def failingExec : Executor := fun _ fs _ _ =>
  ⟨fs, "/app/bin/protoc: Not a directory", some "exit status 126"⟩

end PbTool

namespace PbTool

/-! ## Lemmas on argument strings -/

theorem goOpt_data (f : String) :
    (goOpt f).data = "--go_opt=M".data ++ (f.data ++ "=.".data) := by
  simp [goOpt, String.data_append]

theorem goGrpcOpt_data (f : String) :
    (goGrpcOpt f).data = "--go-grpc_opt=M".data ++ (f.data ++ "=.".data) := by
  simp [goGrpcOpt, String.data_append]

theorem goOut_data (o : String) :
    (goOut o).data = "--go_out=paths=source_relative:".data ++ o.data := by
  simp [goOut, String.data_append]

theorem goGrpcOut_data (o : String) :
    (goGrpcOut o).data = "--go-grpc_out=paths=source_relative:".data ++ o.data := by
  simp [goGrpcOut, String.data_append]

theorem goOpt_injective {f g : String} (h : goOpt f = goOpt g) : f = g := by
  have hd := congrArg String.data h
  rw [goOpt_data, goOpt_data] at hd
  exact String.ext (List.append_cancel_right (List.append_cancel_left hd))

theorem goGrpcOpt_injective {f g : String} (h : goGrpcOpt f = goGrpcOpt g) : f = g := by
  have hd := congrArg String.data h
  rw [goGrpcOpt_data, goGrpcOpt_data] at hd
  exact String.ext (List.append_cancel_right (List.append_cancel_left hd))

/-- Two texts that differ within their first `n` characters are different. -/
theorem ne_of_take_ne {a b : String} (n : Nat) (h : a.data.take n ≠ b.data.take n) : a ≠ b :=
  fun e => h (by rw [e])

/-- A prefix is determined by the first characters of the text. -/
theorem not_prefix_of_take_ne {p l : List Char} (h : l.take p.length ≠ p) : ¬ p <+: l := by
  intro hp
  exact h (List.prefix_iff_eq_take.mp hp).symm

theorem goOpt_ne_goGrpcOpt (f g : String) : goOpt f ≠ goGrpcOpt g := by
  apply ne_of_take_ne 5
  rw [goOpt_data, goGrpcOpt_data, List.take_append_of_le_length (by decide),
    List.take_append_of_le_length (by decide)]
  decide

theorem isMappingOption_goOpt (f : String) : isMappingOption (goOpt f) := by
  refine ⟨Or.inl ?_, ?_⟩
  · rw [goOpt_data]; exact List.prefix_append _ _
  · rw [goOpt_data, ← List.append_assoc]; exact List.suffix_append _ _

theorem isMappingOption_goGrpcOpt (f : String) : isMappingOption (goGrpcOpt f) := by
  refine ⟨Or.inr ?_, ?_⟩
  · rw [goGrpcOpt_data]; exact List.prefix_append _ _
  · rw [goGrpcOpt_data, ← List.append_assoc]; exact List.suffix_append _ _

theorem not_isMappingOption_goOut (o : String) : ¬ isMappingOption (goOut o) := by
  rintro ⟨h | h, -⟩
  · exact not_prefix_of_take_ne (by
      rw [goOut_data, List.take_append_of_le_length (by decide)]; decide) h
  · exact not_prefix_of_take_ne (by
      rw [goOut_data, List.take_append_of_le_length (by decide)]; decide) h

theorem not_isMappingOption_goGrpcOut (o : String) : ¬ isMappingOption (goGrpcOut o) := by
  rintro ⟨h | h, -⟩
  · exact not_prefix_of_take_ne (by
      rw [goGrpcOut_data, List.take_append_of_le_length (by decide)]; decide) h
  · exact not_prefix_of_take_ne (by
      rw [goGrpcOut_data, List.take_append_of_le_length (by decide)]; decide) h

theorem addMOptions_eq (acc files : List String) :
    addMOptions acc files = acc ++ mOptions files := by
  induction files generalizing acc with
  | nil => simp [addMOptions, mOptions]
  | cons f fs ih => simp [addMOptions, mOptions, ih] at *

theorem cmdArgs3_eq (o : String) (files : List String) :
    cmdArgs3 o files = [goOut o, goGrpcOut o] ++ mOptions files ++ files := by
  simp [cmdArgs3, addMOptions_eq]

theorem mOptions_length (files : List String) : (mOptions files).length = 2 * files.length := by
  induction files with
  | nil => rfl
  | cons f fs ih => simp [mOptions] at *; omega

theorem countP_mOptions (files : List String) :
    (mOptions files).countP (fun a => decide (isMappingOption a)) = 2 * files.length := by
  induction files with
  | nil => rfl
  | cons f fs ih =>
    have h : mOptions (f :: fs) = goOpt f :: goGrpcOpt f :: mOptions fs := by simp [mOptions]
    rw [h, List.countP_cons_of_pos _ _ (by simpa using isMappingOption_goOpt f),
      List.countP_cons_of_pos _ _ (by simpa using isMappingOption_goGrpcOpt f), ih]
    simp; omega

theorem count_goOpt_mOptions (f : String) (files : List String) :
    (mOptions files).count (goOpt f) = files.count f := by
  induction files with
  | nil => rfl
  | cons g gs ih =>
    have h : mOptions (g :: gs) = goOpt g :: goGrpcOpt g :: mOptions gs := by simp [mOptions]
    rw [h, List.count_cons, List.count_cons, ih, List.count_cons]
    have h1 : (goGrpcOpt g == goOpt f) = false := by
      simpa using (goOpt_ne_goGrpcOpt f g).symm
    by_cases e : g = f
    · subst e; simp [h1]
    · have h2 : (goOpt g == goOpt f) = false := by
        simpa using fun h => e (goOpt_injective h)
      simp [h1, h2, e]

theorem count_goGrpcOpt_mOptions (f : String) (files : List String) :
    (mOptions files).count (goGrpcOpt f) = files.count f := by
  induction files with
  | nil => rfl
  | cons g gs ih =>
    have h : mOptions (g :: gs) = goOpt g :: goGrpcOpt g :: mOptions gs := by simp [mOptions]
    rw [h, List.count_cons, List.count_cons, ih, List.count_cons]
    have h1 : (goOpt g == goGrpcOpt f) = false := by
      simpa using goOpt_ne_goGrpcOpt g f
    by_cases e : g = f
    · subst e; simp [h1]
    · have h2 : (goGrpcOpt g == goGrpcOpt f) = false := by
        simpa using fun h => e (goGrpcOpt_injective h)
      simp [h1, h2, e]

theorem mem_mOptions {a : String} {files : List String} :
    a ∈ mOptions files ↔ ∃ f ∈ files, a = goOpt f ∨ a = goGrpcOpt f := by
  simp [mOptions]


/-! ## The candidate command lines (C2, C3, C4) -/

/-- C2: for every output directory and every list of schema file paths there are
exactly three candidate argument lists, and each of them contains the two output
flags `--go_out=paths=source_relative:<outputDir>` and
`--go-grpc_out=paths=source_relative:<outputDir>` and ends with all the schema
file paths in their order. -/
theorem candidates_reference_output_and_files (outputDir : String) (relPbFiles : List String) :
    candidates outputDir relPbFiles
        = [cmdArgs outputDir relPbFiles, cmdArgs2 outputDir relPbFiles,
            cmdArgs3 outputDir relPbFiles]
      ∧ (candidates outputDir relPbFiles).length = 3
      ∧ ∀ args ∈ candidates outputDir relPbFiles,
          "--go_out=paths=source_relative:" ++ outputDir ∈ args
            ∧ "--go-grpc_out=paths=source_relative:" ++ outputDir ∈ args
            ∧ relPbFiles <:+ args := by
  refine ⟨rfl, rfl, ?_⟩
  intro args hargs
  simp only [candidates, List.mem_cons, List.mem_singleton, List.not_mem_nil, or_false] at hargs
  rcases hargs with h | h | h
  · subst h
    exact ⟨by simp [cmdArgs, goOut], by simp [cmdArgs, goGrpcOut], List.suffix_append _ _⟩
  · subst h
    exact ⟨by simp [cmdArgs2, goOut], by simp [cmdArgs2, goGrpcOut], List.suffix_append _ _⟩
  · subst h
    rw [cmdArgs3_eq]
    exact ⟨by simp [goOut], by simp [goGrpcOut], List.suffix_append _ _⟩

/-- C3: for a list of N distinct schema file paths, none of which has itself the
form of a mapping option, exactly 2×N arguments of the third approach are mapping
options; for each schema file `f` the options `--go_opt=M<f>=.` and
`--go-grpc_opt=M<f>=.` occur exactly once each, and every argument that is a
mapping option is one of these. -/
theorem mOption_arguments (outputDir : String) (relPbFiles : List String)
    (hdistinct : relPbFiles.Nodup) (hfiles : ∀ f ∈ relPbFiles, ¬ isMappingOption f) :
    (cmdArgs3 outputDir relPbFiles).countP (fun a => decide (isMappingOption a))
        = 2 * relPbFiles.length
      ∧ (∀ f ∈ relPbFiles,
          (cmdArgs3 outputDir relPbFiles).count ("--go_opt=M" ++ f ++ "=.") = 1
            ∧ (cmdArgs3 outputDir relPbFiles).count ("--go-grpc_opt=M" ++ f ++ "=.") = 1)
      ∧ ∀ a ∈ cmdArgs3 outputDir relPbFiles, isMappingOption a →
          ∃ f ∈ relPbFiles, a = "--go_opt=M" ++ f ++ "=." ∨ a = "--go-grpc_opt=M" ++ f ++ "=." := by
  have hcount0 : relPbFiles.countP (fun a => decide (isMappingOption a)) = 0 := by
    rw [List.countP_eq_zero]
    intro a ha
    simpa using hfiles a ha
  have hnotin : ∀ a, isMappingOption a → relPbFiles.count a = 0 := by
    intro a ha
    rw [List.count_eq_zero]
    exact fun hmem => hfiles a hmem ha
  refine ⟨?_, ?_, ?_⟩
  · rw [cmdArgs3_eq, List.countP_append, List.countP_append, countP_mOptions, hcount0,
      List.countP_cons_of_neg _ _ (by simpa using not_isMappingOption_goOut outputDir),
      List.countP_cons_of_neg _ _ (by simpa using not_isMappingOption_goGrpcOut outputDir)]
    simp
  · intro f hf
    have h1 : ∀ a, isMappingOption a →
        (cmdArgs3 outputDir relPbFiles).count a = (mOptions relPbFiles).count a := by
      intro a ha
      have e1 : goOut outputDir ≠ a := fun e => not_isMappingOption_goOut outputDir (e ▸ ha)
      have e2 : goGrpcOut outputDir ≠ a :=
        fun e => not_isMappingOption_goGrpcOut outputDir (e ▸ ha)
      rw [cmdArgs3_eq, List.count_append, List.count_append, hnotin a ha]
      simp [List.count_cons, e1, e2]
    have hone : relPbFiles.count f = 1 := List.count_eq_one_of_mem hdistinct hf
    exact ⟨((h1 _ (isMappingOption_goOpt f)).trans (count_goOpt_mOptions f relPbFiles)).trans hone,
      ((h1 _ (isMappingOption_goGrpcOpt f)).trans (count_goGrpcOpt_mOptions f relPbFiles)).trans
        hone⟩
  · intro a ha hopt
    rw [cmdArgs3_eq] at ha
    simp only [List.mem_append, List.mem_cons, List.mem_singleton, List.not_mem_nil,
      or_false] at ha
    rcases ha with ((h | h) | h) | h
    · exact absurd (h ▸ hopt) (not_isMappingOption_goOut outputDir)
    · exact absurd (h ▸ hopt) (not_isMappingOption_goGrpcOut outputDir)
    · exact mem_mOptions.mp h
    · exact absurd hopt (hfiles a h)

/-- C3, on an instance: two schema files give four mapping options. -/
theorem mOption_arguments_witness :
    (cmdArgs3 "/app/grpc_output" ["pb/a.proto", "pb/b.proto"]).countP
        (fun a => decide (isMappingOption a)) = 2 * ["pb/a.proto", "pb/b.proto"].length
      ∧ (∀ f ∈ ["pb/a.proto", "pb/b.proto"],
          (cmdArgs3 "/app/grpc_output" ["pb/a.proto", "pb/b.proto"]).count
              ("--go_opt=M" ++ f ++ "=.") = 1
            ∧ (cmdArgs3 "/app/grpc_output" ["pb/a.proto", "pb/b.proto"]).count
              ("--go-grpc_opt=M" ++ f ++ "=.") = 1)
      ∧ ∀ a ∈ cmdArgs3 "/app/grpc_output" ["pb/a.proto", "pb/b.proto"], isMappingOption a →
          ∃ f ∈ ["pb/a.proto", "pb/b.proto"],
            a = "--go_opt=M" ++ f ++ "=." ∨ a = "--go-grpc_opt=M" ++ f ++ "=." :=
  mOption_arguments "/app/grpc_output" ["pb/a.proto", "pb/b.proto"] (by decide) (by decide)

/-- C4 as stated fails: the search path `--proto_path=.` is an argument of the
second approach and not of the third. -/
theorem protoPath_not_in_third_approach :
    "--proto_path=." ∈ cmdArgs2 "/app/grpc_output" ["pb/a.proto"]
      ∧ "--proto_path=." ∉ cmdArgs3 "/app/grpc_output" ["pb/a.proto"]
      ∧ ¬ ∀ a ∈ cmdArgs2 "/app/grpc_output" ["pb/a.proto"],
          a ∈ cmdArgs3 "/app/grpc_output" ["pb/a.proto"] := by
  decide

/-- C4, amended: the second approach is the first with the search path
`--proto_path=.` put in front, the third approach is the first with the per-file
mapping options put between the output flags and the schema files; every
argument of the first approach is an argument of the second and of the third,
and `--proto_path=.` is an argument of the third only if it is a schema file
path. -/
theorem approaches_extend_the_first (outputDir : String) (relPbFiles : List String) :
    cmdArgs2 outputDir relPbFiles = "--proto_path=." :: cmdArgs outputDir relPbFiles
      ∧ cmdArgs3 outputDir relPbFiles
          = (cmdArgs outputDir relPbFiles).take 2 ++ mOptions relPbFiles
              ++ (cmdArgs outputDir relPbFiles).drop 2
      ∧ (∀ a ∈ cmdArgs outputDir relPbFiles,
          a ∈ cmdArgs2 outputDir relPbFiles ∧ a ∈ cmdArgs3 outputDir relPbFiles)
      ∧ ("--proto_path=." ∈ cmdArgs3 outputDir relPbFiles ↔ "--proto_path=." ∈ relPbFiles) := by
  have h3 := cmdArgs3_eq outputDir relPbFiles
  refine ⟨rfl, by rw [h3]; simp [cmdArgs], ?_, ?_⟩
  · intro a ha
    refine ⟨List.mem_cons_of_mem _ ha, ?_⟩
    rw [h3]
    simp only [cmdArgs, List.mem_append, List.mem_cons, List.mem_singleton, List.not_mem_nil,
      or_false] at ha ⊢
    tauto
  · rw [h3]
    have e1 : "--proto_path=." ≠ goOut outputDir := by
      apply ne_of_take_ne 3
      rw [goOut_data, List.take_append_of_le_length (by decide)]
      decide
    have e2 : "--proto_path=." ≠ goGrpcOut outputDir := by
      apply ne_of_take_ne 3
      rw [goGrpcOut_data, List.take_append_of_le_length (by decide)]
      decide
    have e3 : "--proto_path=." ∉ mOptions relPbFiles := by
      intro h
      obtain ⟨f, -, h | h⟩ := mem_mOptions.mp h
      · revert h
        apply ne_of_take_ne 3
        rw [goOpt_data, List.take_append_of_le_length (by decide)]
        decide
      · revert h
        apply ne_of_take_ne 3
        rw [goGrpcOpt_data, List.take_append_of_le_length (by decide)]
        decide
    simp [e1, e2, e3]


/-! ## Lemmas on paths and the file system -/

theorem splitSlash_of_no_slash (cs : List Char) (h : '/' ∉ cs) : splitSlash cs = [cs] := by
  induction cs with
  | nil => rfl
  | cons c cs ih =>
    have hc : c ≠ '/' := fun e => h (by simp [e])
    have hcs : '/' ∉ cs := fun e => h (List.mem_cons_of_mem _ e)
    simp [splitSlash, hc, ih hcs]

theorem components_of_no_slash (s : String) (h : '/' ∉ s.data) : components s = [s] := by
  simp [components, splitSlash_of_no_slash _ h]

theorem Join_pb (base : Path) : Join base ["pb"] = base ++ ["pb"] := by
  have : components "pb" = ["pb"] := by decide
  simp [Join, this, cleanStep]

theorem Join_grpc_output (base : Path) : Join base ["grpc_output"] = base ++ ["grpc_output"] := by
  have : components "grpc_output" = ["grpc_output"] := by decide
  simp [Join, this, cleanStep]

theorem resolve_main_go (cwd : Path) : resolve cwd "main.go" = cwd ++ ["main.go"] := by
  have h1 : components "main.go" = ["main.go"] := by decide
  have h2 : ("main.go".data.head? = some '/') = False := by decide
  simp [resolve, Join, h1, h2, cleanStep]

/-- A valid schema name is a path element of its own. -/
theorem validSchemaName.plain {name : String} (h : validSchemaName name) :
    name ≠ "" ∧ name ≠ "." ∧ name ≠ ".." ∧ name ≠ "main.go" := by
  obtain ⟨-, hs⟩ := h
  refine ⟨?_, ?_, ?_, ?_⟩ <;> (intro e; subst e; revert hs; decide)

theorem Join_validName (base : Path) {name : String} (h : validSchemaName name) :
    Join base [name] = base ++ [name] := by
  obtain ⟨h1, h2, h3, -⟩ := h.plain
  simp [Join, components_of_no_slash _ h.1, cleanStep, h1, h2, h3]

theorem Join_pb_validName (base : Path) {name : String} (h : validSchemaName name) :
    Join base ["pb", name] = base ++ ["pb"] ++ [name] := by
  obtain ⟨h1, h2, h3, -⟩ := h.plain
  have : components "pb" = ["pb"] := by decide
  simp [Join, components_of_no_slash _ h.1, this, cleanStep, h1, h2, h3]

theorem find_filter_ne (es : List (Path × Node)) {p q : Path} (hq : q ≠ p) :
    (es.filter (fun e => e.1 ≠ p)).find? (fun e => e.1 = q) = es.find? (fun e => e.1 = q) := by
  rw [List.find?_filter]
  congr 1
  funext a
  by_cases h : a.1 = q
  · simp [h, hq]
  · simp [h]

theorem FS.get_set (fs : FS) {p : Path} (hp : p ≠ []) (n : Node) (q : Path) :
    (fs.set p n).get q = if q = p then some n else fs.get q := by
  by_cases hq : q = p
  · subst hq; simp [FS.get, FS.set, hp]
  · have hq2 : ¬ p = q := fun e => hq e.symm
    by_cases hq0 : q = []
    · simp [FS.get, hq0, hq, hp]
    · simp only [FS.get, FS.set, hq0, hq, if_false, List.find?_cons, hq2, decide_False]
      rw [find_filter_ne _ hq]

theorem FS.get_set_ne (fs : FS) {p q : Path} (hp : p ≠ []) (n : Node) (hq : q ≠ p) :
    (fs.set p n).get q = fs.get q := by
  rw [FS.get_set fs hp, if_neg hq]

theorem FS.get_set_self (fs : FS) {p : Path} (hp : p ≠ []) (n : Node) :
    (fs.set p n).get p = some n := by
  rw [FS.get_set fs hp, if_pos rfl]

/-- What `mkdirs` does to the table: it only puts directories at paths of its
list that had no node. -/
theorem FS.mkdirs_get {fs fs1 : FS} {qs : List Path} (h : fs.mkdirs qs = .ok fs1) (p : Path) :
    fs1.get p = fs.get p ∨ (fs.get p = none ∧ p ∈ qs ∧ fs1.get p = some .dir) := by
  induction qs generalizing fs with
  | nil =>
    simp only [FS.mkdirs, Except.ok.injEq] at h
    subst h; exact Or.inl rfl
  | cons q qs ih =>
    simp only [FS.mkdirs] at h
    split at h
    · rcases ih h with h1 | ⟨h1, h2, h3⟩
      · exact Or.inl h1
      · exact Or.inr ⟨h1, List.mem_cons_of_mem _ h2, h3⟩
    · cases h
    · rename_i hq
      have hq0 : q ≠ [] := by
        intro e; subst e; simp [FS.get] at hq
      rcases ih h with h1 | ⟨h1, h2, h3⟩
      · by_cases e : p = q
        · subst e
          rw [FS.get_set_self fs hq0] at h1
          exact Or.inr ⟨hq, List.mem_cons_self _ _, h1⟩
        · rw [FS.get_set_ne fs hq0 _ e] at h1
          exact Or.inl h1
      · by_cases e : p = q
        · subst e
          exact Or.inr ⟨hq, List.mem_cons_self _ _, h3⟩
        · rw [FS.get_set_ne fs hq0 _ e] at h1
          exact Or.inr ⟨h1, List.mem_cons_of_mem _ h2, h3⟩

theorem FS.mkdirs_get_of_not_mem {fs fs1 : FS} {qs : List Path} (h : fs.mkdirs qs = .ok fs1)
    {p : Path} (hp : p ∉ qs) : fs1.get p = fs.get p := by
  rcases FS.mkdirs_get h p with h1 | ⟨-, h2, -⟩
  · exact h1
  · exact absurd h2 hp

/-- After `mkdirs` every path of its list is a directory. -/
theorem FS.mkdirs_dir {fs fs1 : FS} {qs : List Path} (h : fs.mkdirs qs = .ok fs1)
    {p : Path} (hp : p ∈ qs) : fs1.get p = some .dir := by
  induction qs generalizing fs with
  | nil => cases hp
  | cons q qs ih =>
    simp only [FS.mkdirs] at h
    split at h
    · rename_i hq
      rcases List.mem_cons.mp hp with e | hmem
      · subst e
        rcases FS.mkdirs_get h p with h1 | ⟨h1, -, -⟩
        · rw [h1, hq]
        · rw [hq] at h1; cases h1
      · exact ih h hmem
    · cases h
    · rename_i hq
      have hq0 : q ≠ [] := by
        intro e; subst e; simp [FS.get] at hq
      rcases List.mem_cons.mp hp with e | hmem
      · subst e
        rcases FS.mkdirs_get h p with h1 | ⟨-, -, h3⟩
        · rw [h1, FS.get_set_self fs hq0]
        · exact h3
      · exact ih h hmem

/-- The regular files are the same before and after `mkdirs`. -/
theorem FS.mkdirs_file_iff {fs fs1 : FS} {qs : List Path} (h : fs.mkdirs qs = .ok fs1) (p : Path)
    (c : String) : fs1.get p = some (.file c) ↔ fs.get p = some (.file c) := by
  rcases FS.mkdirs_get h p with h1 | ⟨h1, -, h3⟩
  · rw [h1]
  · rw [h1, h3]; simp

/-- The call `mkdirs` fails when a path of its list is a regular file. -/
theorem FS.mkdirs_ok_not_file {fs fs1 : FS} {qs : List Path} (h : fs.mkdirs qs = .ok fs1)
    {p : Path} (hp : p ∈ qs) (c : String) : fs.get p ≠ some (.file c) := by
  intro hf
  have := FS.mkdirs_dir h hp
  rw [(FS.mkdirs_file_iff h p c).mpr hf] at this
  cases this

theorem isFile_iff (n : Option Node) : isFile n = true ↔ ∃ c, n = some (.file c) := by
  cases n with
  | none => simp [isFile]
  | some x => cases x <;> simp [isFile]

theorem FS.blocked_iff (fs : FS) (p : Path) :
    fs.blocked p = true ↔ ∃ q c, q <+: p ∧ q ≠ p ∧ fs.get q = some (.file c) := by
  simp only [FS.blocked, List.any_eq_true, List.mem_inits, Bool.and_eq_true, decide_eq_true_eq,
    isFile_iff]
  constructor
  · rintro ⟨q, hpre, hne, c, hc⟩
    exact ⟨q, c, hpre, hne, hc⟩
  · rintro ⟨q, c, hpre, hne, hf⟩
    exact ⟨q, hpre, hne, c, hf⟩


/-! ## The approaches of `GenerateGRPC` -/

theorem firstApproach_eq (exec : Executor) (s : Setup) :
    firstApproach exec s =
      { fs := (outcome1 exec s).fs
        debugInfo := s.debugInfo ++ "\nTrying approach: Simple source_relative"
          ++ approachNote (outcome1 exec s).err (outcome1 exec s).output
        finalErr := (outcome1 exec s).err
        finalOutput := (outcome1 exec s).output
        finalCmdString := cmdString s.scriptPath.render (cmdArgs s.outputDir.render s.relPbFiles)
        trace := [invocation s .simple] } := by
  simp [firstApproach, runApproach, Setup.start, outcome1, invocation]

/-- The first approach succeeded: the other two are not run. -/
theorem runApproaches_first_ok (exec : Executor) (s : Setup) (h1 : (outcome1 exec s).err = none) :
    runApproaches exec s = firstApproach exec s := by
  simp [runApproaches, secondApproach, thirdApproach, firstApproach_eq, h1]

/-- The first approach failed: the second is run as the second process. -/
theorem secondApproach_eq (exec : Executor) (s : Setup) {e1 : String}
    (h1 : (outcome1 exec s).err = some e1) :
    secondApproach exec s (firstApproach exec s) =
      { fs := (outcome2 exec s).fs
        debugInfo := (firstApproach exec s).debugInfo ++ "\nTrying approach: With explicit proto_path"
          ++ approachNote (outcome2 exec s).err (outcome2 exec s).output
        finalErr := (outcome2 exec s).err
        finalOutput := (outcome2 exec s).output
        finalCmdString := cmdString s.scriptPath.render (cmdArgs2 s.outputDir.render s.relPbFiles)
        trace := [invocation s .simple, invocation s .protoPath] } := by
  simp [secondApproach, firstApproach_eq, h1, runApproach, outcome2, invocation]

/-- The first approach failed and the second succeeded: the third is not run. -/
theorem runApproaches_second_ok (exec : Executor) (s : Setup) {e1 : String}
    (h1 : (outcome1 exec s).err = some e1) (h2 : (outcome2 exec s).err = none) :
    runApproaches exec s = secondApproach exec s (firstApproach exec s) := by
  rw [runApproaches, secondApproach_eq exec s h1]
  simp [thirdApproach, h2]

/-- The first two approaches failed: the third is run as the third process. -/
theorem runApproaches_third (exec : Executor) (s : Setup) {e1 e2 : String}
    (h1 : (outcome1 exec s).err = some e1) (h2 : (outcome2 exec s).err = some e2) :
    runApproaches exec s =
      { fs := (outcome3 exec s).fs
        debugInfo := (secondApproach exec s (firstApproach exec s)).debugInfo
          ++ "\nTrying approach: With M option"
          ++ approachNote (outcome3 exec s).err (outcome3 exec s).output
        finalErr := (outcome3 exec s).err
        finalOutput := (outcome3 exec s).output
        finalCmdString := cmdString s.scriptPath.render (cmdArgs3 s.outputDir.render s.relPbFiles)
        trace := [invocation s .simple, invocation s .protoPath, invocation s .mOption] } := by
  rw [runApproaches, secondApproach_eq exec s h1]
  simp [thirdApproach, h2, runApproach, outcome3, invocation]

/-- The processes of the approaches, from the outcomes of the three processes. -/
theorem runApproaches_trace (exec : Executor) (s : Setup) :
    (runApproaches exec s).trace =
      invocation s .simple ::
        (if (outcome1 exec s).err = none then []
         else invocation s .protoPath ::
          (if (outcome2 exec s).err = none then [] else [invocation s .mOption])) := by
  cases h1 : (outcome1 exec s).err with
  | none => rw [runApproaches_first_ok exec s h1, firstApproach_eq]; simp
  | some e1 =>
    cases h2 : (outcome2 exec s).err with
    | none => rw [runApproaches_second_ok exec s h1 h2, secondApproach_eq exec s h1]; simp
    | some e2 => rw [runApproaches_third exec s h1 h2]; simp

/-- The error left by the approaches is that of the last approach run. -/
theorem runApproaches_finalErr (exec : Executor) (s : Setup) :
    (runApproaches exec s).finalErr =
      if (outcome1 exec s).err = none then none
      else if (outcome2 exec s).err = none then none else (outcome3 exec s).err := by
  cases h1 : (outcome1 exec s).err with
  | none => rw [runApproaches_first_ok exec s h1, firstApproach_eq]; simp [h1]
  | some e1 =>
    cases h2 : (outcome2 exec s).err with
    | none => rw [runApproaches_second_ok exec s h1 h2, secondApproach_eq exec s h1]; simp [h2]
    | some e2 => rw [runApproaches_third exec s h1 h2]; simp

theorem invocation_approach (s : Setup) (a : Approach) : (invocation s a).approach = a := by
  cases a <;> rfl

/-- The processes of the end of the call: the gateway pass, if the approaches
left no error and the gateway plugin was found. -/
theorem finish_trace (exec : Executor) (s : Setup) (p : Progress) :
    (finish exec s p).trace
      = p.trace ++ (if p.finalErr = none ∧ s.grpcGatewayEnabled = true
          then [invocation s .gateway] else []) := by
  cases h1 : p.finalErr with
  | some e => simp [finish, h1]
  | none =>
    cases h2 : s.grpcGatewayEnabled with
    | false => simp [finish, h1, h2]
    | true =>
      cases h3 : (exec p.trace.length p.fs s.scriptPath.render
          (gatewayCmdArgs s.outputDir.render s.relPbPath)).err <;>
        simp [finish, h1, h2, h3, invocation]

theorem GenerateGRPC_trace (env : Env) (exec : Executor) (fs : FS) (filename content : String)
    (s : Setup) (hs : setup env fs filename content = .ok s) :
    (GenerateGRPC env exec fs filename content).trace
      = (finish exec s (runApproaches exec s)).trace := by
  simp [GenerateGRPC, hs]

theorem GenerateGRPC_report (env : Env) (exec : Executor) (fs : FS) (filename content : String)
    (s : Setup) (hs : setup env fs filename content = .ok s) :
    (GenerateGRPC env exec fs filename content).report
      = (finish exec s (runApproaches exec s)).report := by
  simp [GenerateGRPC, hs]

/-- The number of approaches run is the index of the first success. -/
theorem approaches_short_circuit_aux (env : Env) (exec : Executor) (fs : FS)
    (filename content : String) (s : Setup) (hs : setup env fs filename content = .ok s) :
    (primary (GenerateGRPC env exec fs filename content).trace).length
      = if (outcome1 exec s).err = none then 1
        else if (outcome2 exec s).err = none then 2 else 3 := by
  have ht := GenerateGRPC_trace env exec fs filename content s hs
  rw [finish_trace, runApproaches_trace] at ht
  rw [ht]
  by_cases h1 : (outcome1 exec s).err = none <;> by_cases h2 : (outcome2 exec s).err = none <;>
    by_cases h3 : (runApproaches exec s).finalErr = none ∧ s.grpcGatewayEnabled = true <;>
    simp [primary, h1, h2, h3, invocation_approach]

/-- C1: when `GenerateGRPC` reaches the approaches, then whatever the outcomes of
the three processes, the processes started for the approaches are: the first
approach, then the second if and only if the first failed, then the third if
and only if the first and the second failed.  So each approach is run at most
once, in the order 1, 2, 3, none is run after a success, the first is run exactly
once, and the number of approaches run is the index of the first success (3 when
none succeeds). -/
theorem approaches_short_circuit (env : Env) (exec : Executor) (fs : FS)
    (filename content : String) (s : Setup) (hs : setup env fs filename content = .ok s) :
    primary (GenerateGRPC env exec fs filename content).trace
        = invocation s .simple ::
            (if (outcome1 exec s).err = none then []
             else invocation s .protoPath ::
              (if (outcome2 exec s).err = none then [] else [invocation s .mOption]))
      ∧ (primary (GenerateGRPC env exec fs filename content).trace).map (fun i => i.approach)
          <+: [.simple, .protoPath, .mOption]
      ∧ ((GenerateGRPC env exec fs filename content).trace.map (fun i => i.approach)).count
          .simple = 1
      ∧ (.protoPath ∈ (GenerateGRPC env exec fs filename content).trace.map (fun i => i.approach)
          ↔ (outcome1 exec s).err ≠ none)
      ∧ (.mOption ∈ (GenerateGRPC env exec fs filename content).trace.map (fun i => i.approach)
          ↔ (outcome1 exec s).err ≠ none ∧ (outcome2 exec s).err ≠ none)
      ∧ (primary (GenerateGRPC env exec fs filename content).trace).length
          = if (outcome1 exec s).err = none then 1
            else if (outcome2 exec s).err = none then 2 else 3 := by
  have ht := GenerateGRPC_trace env exec fs filename content s hs
  rw [finish_trace, runApproaches_trace] at ht
  rw [ht]
  by_cases h1 : (outcome1 exec s).err = none <;> by_cases h2 : (outcome2 exec s).err = none <;>
    by_cases h3 : (runApproaches exec s).finalErr = none ∧ s.grpcGatewayEnabled = true <;>
    simp [primary, h1, h2, h3, invocation_approach]


/-! ## Lemmas on texts -/

theorem contains_refl (a : String) : contains a a := List.infix_refl _

theorem contains_trans {a b c : String} (h1 : contains a b) (h2 : contains b c) :
    contains a c := List.IsInfix.trans h2 h1

theorem contains_append_left {a n : String} (b : String) (h : contains a n) :
    contains (a ++ b) n := by
  unfold contains at *
  rw [String.data_append]
  exact List.IsInfix.trans h (List.prefix_append _ _).isInfix

theorem contains_append_right {b n : String} (a : String) (h : contains b n) :
    contains (a ++ b) n := by
  unfold contains at *
  rw [String.data_append]
  exact List.IsInfix.trans h (List.suffix_append _ _).isInfix

theorem startsWith_append (a b : String) : startsWith (a ++ b) a := by
  unfold startsWith
  rw [String.data_append]
  exact List.prefix_append _ _

theorem startsWith_append_left {a p : String} (b : String) (h : startsWith a p) :
    startsWith (a ++ b) p := by
  unfold startsWith at *
  rw [String.data_append]
  exact List.IsPrefix.trans h (List.prefix_append _ _)

theorem startsWith_refl (a : String) : startsWith a a := List.prefix_refl _

theorem startsWith_trans {a b c : String} (h1 : startsWith a b) (h2 : startsWith b c) :
    startsWith a c := by
  unfold startsWith at *
  exact List.IsPrefix.trans h2 h1

theorem startsWith.contains {a p : String} (h : startsWith a p) : contains a p :=
  List.IsPrefix.isInfix h

/-- A text cannot start with two prefixes that part ways. -/
theorem startsWith_exclusive {r a x y : String} (hx : startsWith r (a ++ x))
    (hy : startsWith r (a ++ y)) (hxy : ¬ x.data <+: y.data) (hyx : ¬ y.data <+: x.data) :
    False := by
  unfold startsWith at hx hy
  rw [String.data_append] at hx hy
  rcases List.prefix_or_prefix_of_prefix hx hy with h | h
  · exact hxy ((List.prefix_append_right_inj _).mp h)
  · exact hyx ((List.prefix_append_right_inj _).mp h)

theorem nameList_eq (header : String) (files : List (String × Node)) :
    ∃ t, nameList header files = header ++ t := by
  induction files generalizing header with
  | nil => exact ⟨"", by simp [nameList]⟩
  | cons f fs ih =>
    obtain ⟨t, ht⟩ := ih (header ++ "\n  - " ++ f.1)
    refine ⟨"\n  - " ++ f.1 ++ t, ?_⟩
    simp only [nameList, List.foldl_cons] at ht ⊢
    rw [ht]
    simp [String.append_assoc]

theorem contains_nameList {header n : String} (files : List (String × Node))
    (h : contains header n) : contains (nameList header files) n := by
  obtain ⟨t, ht⟩ := nameList_eq header files
  rw [ht]
  exact contains_append_left _ h

theorem approachNote_contains_output (err : Option String) (output : String) :
    contains (approachNote err output) output := by
  cases err <;> exact contains_append_right _ (contains_refl _)

theorem approachNote_contains_error (e output : String) :
    contains (approachNote (some e) output) e := by
  simp only [approachNote]
  exact contains_append_left _ (contains_append_left _ (contains_append_right _ (contains_refl _)))

/-! ## The report of `GenerateGRPC` -/

/-- The report of the end of the call contains the debug information of the
approaches. -/
theorem finish_contains_debugInfo (exec : Executor) (s : Setup) (p : Progress) :
    contains (finish exec s p).report p.debugInfo := by
  cases h1 : p.finalErr with
  | some e =>
    simp only [finish, h1, failureReport]
    exact contains_append_right _ (contains_refl _)
  | none =>
    cases h2 : s.grpcGatewayEnabled with
    | false =>
      simp only [finish, h1, h2, successReport]
      exact contains_append_left _ (contains_append_right _ (contains_refl _))
    | true =>
      cases h3 : (exec p.trace.length p.fs s.scriptPath.render
          (gatewayCmdArgs s.outputDir.render s.relPbPath)).err <;>
        simp only [finish, h1, h2, h3, successReport, if_true] <;>
        exact contains_append_left _ (contains_append_right _
          (contains_append_left _ (contains_append_left _ (contains_refl _))))

/-- The debug information after the approaches extends the one they started with. -/
theorem runApproaches_contains_start (exec : Executor) (s : Setup) :
    contains (runApproaches exec s).debugInfo s.debugInfo := by
  cases h1 : (outcome1 exec s).err with
  | none =>
    rw [runApproaches_first_ok exec s h1, firstApproach_eq]
    exact contains_append_left _ (contains_append_left _ (contains_refl _))
  | some e1 =>
    cases h2 : (outcome2 exec s).err with
    | none =>
      rw [runApproaches_second_ok exec s h1 h2, secondApproach_eq exec s h1, firstApproach_eq]
      exact contains_append_left _ (contains_append_left _
        (contains_append_left _ (contains_append_left _ (contains_refl _))))
    | some e2 =>
      rw [runApproaches_third exec s h1 h2, secondApproach_eq exec s h1, firstApproach_eq]
      exact contains_append_left _ (contains_append_left _ (contains_append_left _
        (contains_append_left _ (contains_append_left _ (contains_append_left _
          (contains_refl _))))))

/-- The note of the first approach is in the debug information. -/
theorem runApproaches_contains_note1 (exec : Executor) (s : Setup) :
    contains (runApproaches exec s).debugInfo
      (approachNote (outcome1 exec s).err (outcome1 exec s).output) := by
  cases h1 : (outcome1 exec s).err with
  | none =>
    rw [runApproaches_first_ok exec s h1, firstApproach_eq, h1]
    exact contains_append_right _ (contains_refl _)
  | some e1 =>
    cases h2 : (outcome2 exec s).err with
    | none =>
      rw [runApproaches_second_ok exec s h1 h2, secondApproach_eq exec s h1, firstApproach_eq, h1]
      exact contains_append_left _ (contains_append_left _
        (contains_append_right _ (contains_refl _)))
    | some e2 =>
      rw [runApproaches_third exec s h1 h2, secondApproach_eq exec s h1, firstApproach_eq, h1]
      exact contains_append_left _ (contains_append_left _ (contains_append_left _
        (contains_append_left _ (contains_append_right _ (contains_refl _)))))

/-- The note of the second approach is in the debug information when it was run. -/
theorem runApproaches_contains_note2 (exec : Executor) (s : Setup)
    (h1 : (outcome1 exec s).err ≠ none) :
    contains (runApproaches exec s).debugInfo
      (approachNote (outcome2 exec s).err (outcome2 exec s).output) := by
  obtain ⟨e1, h1⟩ := Option.ne_none_iff_exists'.mp h1
  cases h2 : (outcome2 exec s).err with
  | none =>
    rw [runApproaches_second_ok exec s h1 h2, secondApproach_eq exec s h1, h2]
    exact contains_append_right _ (contains_refl _)
  | some e2 =>
    rw [runApproaches_third exec s h1 h2, secondApproach_eq exec s h1, h2]
    exact contains_append_left _ (contains_append_left _
      (contains_append_right _ (contains_refl _)))

/-- The note of the third approach is in the debug information when it was run. -/
theorem runApproaches_contains_note3 (exec : Executor) (s : Setup)
    (h1 : (outcome1 exec s).err ≠ none) (h2 : (outcome2 exec s).err ≠ none) :
    contains (runApproaches exec s).debugInfo
      (approachNote (outcome3 exec s).err (outcome3 exec s).output) := by
  obtain ⟨e1, h1⟩ := Option.ne_none_iff_exists'.mp h1
  obtain ⟨e2, h2⟩ := Option.ne_none_iff_exists'.mp h2
  rw [runApproaches_third exec s h1 h2]
  exact contains_append_right _ (contains_refl _)


theorem recorded_of_contains {report debugInfo : String} (r : ProcResult)
    (h1 : contains report debugInfo) (h2 : contains debugInfo (approachNote r.err r.output)) :
    recorded report r := by
  have h := contains_trans h1 h2
  refine ⟨h, contains_trans h (approachNote_contains_output _ _), ?_⟩
  intro e he
  rw [he] at h
  exact contains_trans h (approachNote_contains_error _ _)

/-- C5: when `GenerateGRPC` reaches the approaches, the returned text records
every approach that was run, whatever the outcomes: the first always, the second
if the first failed, the third if the first two failed.  It contains the line of
the attempt, with its combined output and, for a failed attempt, its error; this
holds for the failure report and for the success report alike. -/
theorem report_records_every_attempt (env : Env) (exec : Executor) (fs : FS)
    (filename content : String) (s : Setup) (hs : setup env fs filename content = .ok s) :
    recorded (GenerateGRPC env exec fs filename content).report (outcome1 exec s)
      ∧ ((outcome1 exec s).err ≠ none →
          recorded (GenerateGRPC env exec fs filename content).report (outcome2 exec s))
      ∧ ((outcome1 exec s).err ≠ none → (outcome2 exec s).err ≠ none →
          recorded (GenerateGRPC env exec fs filename content).report (outcome3 exec s)) := by
  rw [GenerateGRPC_report env exec fs filename content s hs]
  have hd := finish_contains_debugInfo exec s (runApproaches exec s)
  exact ⟨recorded_of_contains _ hd (runApproaches_contains_note1 exec s),
    fun h1 => recorded_of_contains _ hd (runApproaches_contains_note2 exec s h1),
    fun h1 h2 => recorded_of_contains _ hd (runApproaches_contains_note3 exec s h1 h2)⟩

/-- The report starts as a failure report when the approaches left an error. -/
theorem finish_failure (exec : Executor) (s : Setup) (p : Progress) {e : String}
    (h : p.finalErr = some e) :
    startsWith (finish exec s p).report (failurePrefix s.filePath.render) := by
  simp only [finish, h, failureReport, failurePrefix]
  repeat (first | with_reducible exact startsWith_refl _ | apply startsWith_append_left)

/-- The report starts as a success report when the approaches left no error,
whatever the gateway pass does. -/
theorem finish_success (exec : Executor) (s : Setup) (p : Progress) (h : p.finalErr = none) :
    startsWith (finish exec s p).report (successPrefix s.filePath.render) := by
  have key : ∀ d l : String, startsWith
      (successReport s.filePath.render s.outputDir.render p.finalOutput d l)
      (successPrefix s.filePath.render) := by
    intro d l
    simp only [successReport, successPrefix]
    repeat (first | with_reducible exact startsWith_refl _ | apply startsWith_append_left)
  cases h2 : s.grpcGatewayEnabled with
  | false => simp only [finish, h, h2]; exact key _ _
  | true =>
    cases h3 : (exec p.trace.length p.fs s.scriptPath.render
        (gatewayCmdArgs s.outputDir.render s.relPbPath)).err <;>
      simp only [finish, h, h2, h3, if_true] <;> exact key _ _

/-- No text starts both as a failure report and as a success report. -/
theorem not_failure_and_success {report filePath : String}
    (hf : startsWith report (failurePrefix filePath))
    (hsucc : startsWith report (successPrefix filePath)) : False :=
  startsWith_exclusive hf hsucc (by decide) (by decide)

theorem startsWith_saved_of_failure {report filePath : String}
    (h : startsWith report (failurePrefix filePath)) :
    startsWith report ("File saved successfully: " ++ filePath) := by
  refine startsWith_trans h ?_
  simp only [failurePrefix]
  repeat (first | with_reducible exact startsWith_refl _ | apply startsWith_append_left)

theorem startsWith_saved_of_success {report filePath : String}
    (h : startsWith report (successPrefix filePath)) :
    startsWith report ("File saved successfully: " ++ filePath) := by
  refine startsWith_trans h ?_
  simp only [successPrefix]
  repeat (first | with_reducible exact startsWith_refl _ | apply startsWith_append_left)

/-- C6: when `GenerateGRPC` reaches the approaches, the returned text starts with
`File saved successfully: <path>` in every case; it goes on as the failure report
(`Warning: Error generating GRPC code`) if and only if all three approaches
failed, and as the success report (`GRPC code generated successfully`) if and
only if one of the approaches run succeeded.  When the first two fail and the
third succeeds it is the success report, after three attempts. -/
theorem failure_iff_all_approaches_failed (env : Env) (exec : Executor) (fs : FS)
    (filename content : String) (s : Setup) (hs : setup env fs filename content = .ok s) :
    startsWith (GenerateGRPC env exec fs filename content).report
        ("File saved successfully: " ++ s.filePath.render)
      ∧ (startsWith (GenerateGRPC env exec fs filename content).report
            (failurePrefix s.filePath.render)
          ↔ (outcome1 exec s).err ≠ none ∧ (outcome2 exec s).err ≠ none
              ∧ (outcome3 exec s).err ≠ none)
      ∧ (startsWith (GenerateGRPC env exec fs filename content).report
            (successPrefix s.filePath.render)
          ↔ (outcome1 exec s).err = none
              ∨ ((outcome1 exec s).err ≠ none ∧ (outcome2 exec s).err = none)
              ∨ ((outcome1 exec s).err ≠ none ∧ (outcome2 exec s).err ≠ none
                  ∧ (outcome3 exec s).err = none))
      ∧ ((outcome1 exec s).err ≠ none → (outcome2 exec s).err ≠ none →
          (outcome3 exec s).err = none →
          startsWith (GenerateGRPC env exec fs filename content).report
              (successPrefix s.filePath.render)
            ∧ (primary (GenerateGRPC env exec fs filename content).trace).length = 3) := by
  have hlen := (approaches_short_circuit_aux env exec fs filename content s hs)
  rw [GenerateGRPC_report env exec fs filename content s hs] at *
  have hfin := runApproaches_finalErr exec s
  cases hF : (runApproaches exec s).finalErr with
  | none =>
    have hsucc := finish_success exec s _ hF
    have hnf : ¬ startsWith (finish exec s (runApproaches exec s)).report
        (failurePrefix s.filePath.render) := fun hf => not_failure_and_success hf hsucc
    rw [hF] at hfin
    refine ⟨startsWith_saved_of_success hsucc, ?_, ?_, ?_⟩
    · refine ⟨fun hf => absurd hf hnf, ?_⟩
      rintro ⟨h1, h2, h3⟩
      simp [h1, h2] at hfin
      exact absurd hfin.symm h3
    · refine ⟨fun _ => ?_, fun _ => hsucc⟩
      by_cases h1 : (outcome1 exec s).err = none
      · exact Or.inl h1
      · by_cases h2 : (outcome2 exec s).err = none
        · exact Or.inr (Or.inl ⟨h1, h2⟩)
        · simp [h1, h2] at hfin
          exact Or.inr (Or.inr ⟨h1, h2, hfin.symm⟩)
    · intro h1 h2 _
      exact ⟨hsucc, by rw [hlen]; simp [h1, h2]⟩
  | some e =>
    have hfail := finish_failure exec s _ hF
    have hns : ¬ startsWith (finish exec s (runApproaches exec s)).report
        (successPrefix s.filePath.render) := fun h => not_failure_and_success hfail h
    rw [hF] at hfin
    have h1 : (outcome1 exec s).err ≠ none := by
      intro h1; simp [h1] at hfin
    have h2 : (outcome2 exec s).err ≠ none := by
      intro h2; simp [h1, h2] at hfin
    have h3 : (outcome3 exec s).err ≠ none := by
      intro h3; simp [h1, h2, h3] at hfin
    refine ⟨startsWith_saved_of_failure hfail, ?_, ?_, ?_⟩
    · exact ⟨fun _ => ⟨h1, h2, h3⟩, fun _ => hfail⟩
    · refine ⟨fun h => absurd h hns, ?_⟩
      rintro (h | ⟨-, h⟩ | ⟨-, -, h⟩)
      · exact absurd h h1
      · exact absurd h h2
      · exact absurd h h3
    · intro _ _ h; exact absurd h h3


/-! ## Tool resolution and the gateway pass -/

theorem resolveProtoc_eq_none (env : Env) (sv : Saved) :
    resolveProtoc env sv = none
      ↔ IsNotExist (sv.fs.Stat (Join sv.appRoot ["bin", "protoc"])) = true
          ∧ env.lookPath "protoc" = none := by
  unfold resolveProtoc
  split <;> simp_all

/-- The call returns what the tool checks return, and starts no process, when a
tool is not found. -/
theorem GenerateGRPC_of_tools_error (env : Env) (exec : Executor) (fs : FS)
    (filename content : String) (sv : Saved) (text : String)
    (hsv : saveSchema env fs filename content = .ok sv)
    (ht : resolveTools env sv = .error text) :
    GenerateGRPC env exec fs filename content = ⟨text, sv.fs, []⟩ := by
  simp [GenerateGRPC, setup, hsv, ht]

set_option maxRecDepth 100000 in
theorem contains_install_protoc (a b : String) : contains (protocNotFound a b) "install" := by
  unfold protocNotFound
  repeat (first
    | exact contains_append_right _ (by decide)
    | apply contains_append_left)

set_option maxRecDepth 100000 in
theorem contains_install_genGo (a b : String) : contains (genGoNotFound a b) "install" := by
  unfold genGoNotFound
  repeat (first
    | exact contains_append_right _ (by decide)
    | apply contains_append_left)

set_option maxRecDepth 100000 in
theorem contains_install_genGoGrpc (a b : String) :
    contains (genGoGrpcNotFound a b) "install" := by
  unfold genGoGrpcNotFound
  repeat (first
    | exact contains_append_right _ (by decide)
    | apply contains_append_left)

/-- Where the probes of the source report a tool missing, no process is started:
when the schema has been saved and `os.IsNotExist` holds of the error of `os.Stat`
for the project-local `bin/protoc` while no `protoc` is on the search path, or
`os.Stat` fails for one of the plugins `protoc-gen-go`, `protoc-gen-go-grpc`,
`GenerateGRPC` starts no process at all, neither for an approach nor for the
gateway, and returns the not-found text of the first missing tool, which carries
the install guidance.  (An absent compiler for which `os.Stat` fails in another
way, as when `bin` is a regular file, is not covered.) -/
theorem no_process_without_tools (env : Env) (exec : Executor) (fs : FS)
    (filename content : String) (sv : Saved)
    (hsv : saveSchema env fs filename content = .ok sv)
    (habsent : (IsNotExist (sv.fs.Stat (Join sv.appRoot ["bin", "protoc"])) = true
          ∧ env.lookPath "protoc" = none)
        ∨ pluginAbsent env sv "protoc-gen-go" = true
        ∨ pluginAbsent env sv "protoc-gen-go-grpc" = true) :
    (GenerateGRPC env exec fs filename content).trace = []
      ∧ ((GenerateGRPC env exec fs filename content).report
            = protocNotFound sv.filePath.render (Join sv.appRoot ["bin", "protoc"]).render
          ∨ (GenerateGRPC env exec fs filename content).report
            = genGoNotFound sv.filePath.render (pluginPath env "protoc-gen-go")
          ∨ (GenerateGRPC env exec fs filename content).report
            = genGoGrpcNotFound sv.filePath.render (pluginPath env "protoc-gen-go-grpc"))
      ∧ ((IsNotExist (sv.fs.Stat (Join sv.appRoot ["bin", "protoc"])) = true
            ∧ env.lookPath "protoc" = none) →
          (GenerateGRPC env exec fs filename content).report
            = protocNotFound sv.filePath.render (Join sv.appRoot ["bin", "protoc"]).render)
      ∧ contains (GenerateGRPC env exec fs filename content).report "install" := by
  cases hp : resolveProtoc env sv with
  | none =>
    have ht : resolveTools env sv = .error
        (protocNotFound sv.filePath.render (Join sv.appRoot ["bin", "protoc"]).render) := by
      simp [resolveTools, hp]
    rw [GenerateGRPC_of_tools_error env exec fs filename content sv _ hsv ht]
    exact ⟨rfl, Or.inl rfl, fun _ => rfl, contains_install_protoc _ _⟩
  | some protocPath =>
    have hnot : ¬ (IsNotExist (sv.fs.Stat (Join sv.appRoot ["bin", "protoc"])) = true
        ∧ env.lookPath "protoc" = none) := by
      rw [← resolveProtoc_eq_none, hp]; simp
    by_cases hgo : pluginAbsent env sv "protoc-gen-go" = true
    · have ht : resolveTools env sv = .error
          (genGoNotFound sv.filePath.render (pluginPath env "protoc-gen-go")) := by
        simp [resolveTools, hp, hgo]
      rw [GenerateGRPC_of_tools_error env exec fs filename content sv _ hsv ht]
      exact ⟨rfl, Or.inr (Or.inl rfl), fun h => absurd h hnot, contains_install_genGo _ _⟩
    · have hgrpc : pluginAbsent env sv "protoc-gen-go-grpc" = true := by
        rcases habsent with h | h | h
        · exact absurd h hnot
        · exact absurd h hgo
        · exact h
      have ht : resolveTools env sv = .error
          (genGoGrpcNotFound sv.filePath.render (pluginPath env "protoc-gen-go-grpc")) := by
        simp [resolveTools, hp, hgo, hgrpc]
      rw [GenerateGRPC_of_tools_error env exec fs filename content sv _ hsv ht]
      exact ⟨rfl, Or.inr (Or.inr rfl), fun h => absurd h hnot, contains_install_genGoGrpc _ _⟩

/-- What a successful `saveSchema` did, step by step. -/
theorem saveSchema_ok {env : Env} {fs : FS} {filename content : String} {sv : Saved}
    (hsv : saveSchema env fs filename content = .ok sv) :
    ∃ fs1 fs2, env.getwd = .ok sv.cwd
      ∧ sv.appRoot = appRootOf sv.cwd fs
      ∧ fs.MkdirAll (sv.appRoot ++ ["pb"]) = .ok fs1
      ∧ sv.filePath = Join (sv.appRoot ++ ["pb"]) [filename]
      ∧ fs1.WriteFile sv.filePath content = .ok fs2
      ∧ sv.outputDir = sv.appRoot ++ ["grpc_output"]
      ∧ fs2.MkdirAll sv.outputDir = .ok sv.fs := by
  unfold saveSchema at hsv
  split at hsv
  · cases hsv
  · rename_i cwd hcwd
    simp only [Join_pb, Join_grpc_output] at hsv
    split at hsv
    · cases hsv
    · rename_i fs1 h1
      split at hsv
      · cases hsv
      · rename_i fs2 h2
        split at hsv
        · cases hsv
        · rename_i fs3 h3
          simp only [Except.ok.injEq] at hsv
          subst hsv
          exact ⟨fs1, fs2, hcwd, rfl, h1, rfl, h2, rfl, h3⟩

/-- What a successful `WriteFile` did. -/
theorem FS.WriteFile_ok {fs fs2 : FS} {p : Path} {content : String}
    (h : fs.WriteFile p content = .ok fs2) :
    p ≠ [] ∧ fs2 = fs.set p (.file content) ∧ fs.Stat p.dropLast = .ok .dir
      ∧ fs.get p ≠ some .dir := by
  unfold FS.WriteFile at h
  split at h
  · cases h
  · cases h
  · rename_i hst
    split at h
    · cases h
    · rename_i hne
      simp only [Except.ok.injEq] at h
      refine ⟨?_, h.symm, hst, fun e => hne e⟩
      intro e
      subst e
      exact hne (by simp [FS.get])


/-! ## The output directory when the compiler is absent (C8) -/

theorem prefix_antisymm {p q : Path} (h1 : p <+: q) (h2 : q <+: p) : p = q :=
  List.IsPrefix.eq_of_length h1 (Nat.le_antisymm h1.length_le h2.length_le)

/-- A path strictly below `root/a` is no prefix of `root/b`. -/
theorem not_prefix_sibling {root p : Path} {a b : String} (hp : root ++ [a] <+: p)
    (hne : p ≠ root ++ [a]) : ¬ p <+: root ++ [b] := by
  intro h
  have hl1 := hp.length_le
  have hl2 := h.length_le
  simp only [List.length_append, List.length_singleton] at hl1 hl2
  have hlen : (root ++ [a]).length = p.length := by
    simp only [List.length_append, List.length_singleton]; omega
  exact hne (List.IsPrefix.eq_of_length hp hlen).symm

/-- The table strictly below the output directory after `saveSchema`. -/
theorem saveSchema_frame {env : Env} {fs : FS} {filename content : String} {sv : Saved}
    (hsv : saveSchema env fs filename content = .ok sv) :
    sv.fs.get sv.outputDir = some .dir
      ∧ ∀ p, sv.outputDir <+: p → p ≠ sv.outputDir → p ≠ sv.filePath →
          sv.fs.get p = fs.get p := by
  obtain ⟨fs1, fs2, -, -, h1, -, h2, hout, h3⟩ := saveSchema_ok hsv
  obtain ⟨hp0, hfs2, -, -⟩ := FS.WriteFile_ok h2
  refine ⟨FS.mkdirs_dir h3 ((List.mem_inits _ _).mpr (List.prefix_refl _)), ?_⟩
  intro p hpre hne hfile
  rw [hout] at hpre hne
  have e3 : sv.fs.get p = fs2.get p := by
    apply FS.mkdirs_get_of_not_mem h3
    rw [List.mem_inits, hout]
    exact fun h => hne (prefix_antisymm h hpre)
  have e2 : fs2.get p = fs1.get p := by
    rw [hfs2, FS.get_set_ne _ hp0 _ hfile]
  have e1 : fs1.get p = fs.get p := by
    apply FS.mkdirs_get_of_not_mem h1
    rw [List.mem_inits]
    exact not_prefix_sibling hpre hne
  rw [e3, e2, e1]

/-- C8, amended: when `GenerateGRPC` gets as far as the compiler check, that is
the schema file has been saved and `os.MkdirAll` of the output directory
`grpc_output` has succeeded (source lines 263-289), and the compiler resolves to
absent (`os.Stat` reports the project-local `bin/protoc` as not existing and no
`protoc` is on the search path), it returns the compiler-not-found text and
starts no process; the output directory is a directory afterwards (the call has
created it if it did not exist), and every path strictly below it, other than
the path the schema was saved to, holds after the call what it held before. -/
theorem output_directory_content_kept (env : Env) (exec : Executor) (fs : FS)
    (filename content : String) (sv : Saved)
    (hsv : saveSchema env fs filename content = .ok sv)
    (habsent : IsNotExist (sv.fs.Stat (Join sv.appRoot ["bin", "protoc"])) = true
      ∧ env.lookPath "protoc" = none) :
    (GenerateGRPC env exec fs filename content).report
        = protocNotFound sv.filePath.render (Join sv.appRoot ["bin", "protoc"]).render
      ∧ (GenerateGRPC env exec fs filename content).trace = []
      ∧ sv.outputDir = Join sv.appRoot ["grpc_output"]
      ∧ (GenerateGRPC env exec fs filename content).fs.get sv.outputDir = some .dir
      ∧ ∀ p, sv.outputDir <+: p → p ≠ sv.outputDir → p ≠ sv.filePath →
          (GenerateGRPC env exec fs filename content).fs.get p = fs.get p := by
  have ht : resolveTools env sv = .error
      (protocNotFound sv.filePath.render (Join sv.appRoot ["bin", "protoc"]).render) := by
    simp [resolveTools, (resolveProtoc_eq_none env sv).mpr habsent]
  rw [GenerateGRPC_of_tools_error env exec fs filename content sv _ hsv ht]
  obtain ⟨-, -, -, -, -, -, -, hout, -⟩ := saveSchema_ok hsv
  exact ⟨rfl, rfl, by rw [hout, Join_grpc_output], (saveSchema_frame hsv).1,
    (saveSchema_frame hsv).2⟩

/-! ## The gateway pass (C9) -/

/-- The debug information the approaches start with contains the skip note when
the gateway plugin was not found. -/
theorem prepare_skip_note {env : Env} {sv : Saved} {t : Tools} {s : Setup}
    (h : prepare env sv t = .ok s) (hg : s.grpcGatewayEnabled = false) :
    contains s.debugInfo (gatewaySkipNote env) := by
  unfold prepare at h
  cases hw : sv.fs.WriteFile (Join sv.appRoot ["run_protoc.sh"])
      (tempScript sv.appRoot.render t.protocPath) with
  | error err => simp [hw] at h
  | ok fs1 =>
    simp only [hw] at h
    split at h
    · cases h
    · simp only [Except.ok.injEq] at h
      subst h
      simp only at hg ⊢
      rw [hg]
      have h1 : contains (gatewayDebug env (debugHeader sv t (Join sv.appRoot ["run_protoc.sh"]))
          false) (gatewaySkipNote env) := by
        simp only [gatewayDebug, Bool.false_eq_true, if_false]
        exact contains_append_right _ (contains_refl _)
      have h2 : ∀ (f : FS) (d : String), contains d (gatewaySkipNote env) →
          contains (testOutputDir f sv.outputDir d).2 (gatewaySkipNote env) := by
        intro f d hd
        cases hw2 : f.WriteFile (Join sv.outputDir ["test.txt"]) "test" with
        | error err =>
          simp only [testOutputDir, hw2]
          exact contains_append_left _ (contains_append_left _ hd)
        | ok fs2 =>
          simp only [testOutputDir, hw2]
          exact contains_append_left _ hd
      have h3 : ∀ (f : FS) (d : String), contains d (gatewaySkipNote env) →
          contains (beforeList f sv.outputDir d) (gatewaySkipNote env) := by
        intro f d hd
        unfold beforeList
        split
        · exact contains_nameList _ (contains_append_left _ hd)
        · exact contains_append_left _ (contains_append_left _ hd)
      exact h3 _ _ (h2 _ _ h1)

theorem setup_skip_note {env : Env} {fs : FS} {filename content : String} {s : Setup}
    (h : setup env fs filename content = .ok s) (hg : s.grpcGatewayEnabled = false) :
    contains s.debugInfo (gatewaySkipNote env) := by
  unfold setup at h
  split at h
  · cases h
  · split at h
    · cases h
    · exact prepare_skip_note h hg

/-- The flag `grpcGatewayEnabled` of the state the approaches start in says that
`os.Stat` found the gateway plugin, in the file system after the script was
written. -/
theorem setup_grpcGatewayEnabled {env : Env} {fs : FS} {filename content : String} {s : Setup}
    (h : setup env fs filename content = .ok s) :
    ∃ sv t fs1, saveSchema env fs filename content = .ok sv
      ∧ resolveTools env sv = .ok t
      ∧ sv.fs.WriteFile (Join sv.appRoot ["run_protoc.sh"])
          (tempScript sv.appRoot.render t.protocPath) = .ok fs1
      ∧ s.filePath = sv.filePath
      ∧ s.grpcGatewayEnabled
          = !pluginAbsent env { sv with fs := fs1 } "protoc-gen-grpc-gateway" := by
  unfold setup at h
  split at h
  · cases h
  · rename_i sv hsv
    split at h
    · cases h
    · rename_i t ht
      unfold prepare at h
      cases hw : sv.fs.WriteFile (Join sv.appRoot ["run_protoc.sh"])
          (tempScript sv.appRoot.render t.protocPath) with
      | error err => simp [hw] at h
      | ok fs1 =>
        simp only [hw] at h
        split at h
        · cases h
        · simp only [Except.ok.injEq] at h
          subst h
          exact ⟨sv, t, fs1, hsv, ht, hw, rfl, rfl⟩

/-- C9: when `GenerateGRPC` reaches the approaches and one of the approaches run
succeeded, the returned text is the success report, whatever the gateway plugin
or the gateway process does.  The gateway process is started once if the plugin
was found and not at all if it was not; in that case the report contains the note
`skipping gateway generation` and is the success report with the debug
information as the approaches left it: no gateway failure is recorded. -/
theorem gateway_never_fails_generation (env : Env) (exec : Executor) (fs : FS)
    (filename content : String) (s : Setup) (hs : setup env fs filename content = .ok s)
    (hok : (outcome1 exec s).err = none
      ∨ ((outcome1 exec s).err ≠ none ∧ (outcome2 exec s).err = none)
      ∨ ((outcome1 exec s).err ≠ none ∧ (outcome2 exec s).err ≠ none
          ∧ (outcome3 exec s).err = none)) :
    startsWith (GenerateGRPC env exec fs filename content).report
        (successPrefix s.filePath.render)
      ∧ ((GenerateGRPC env exec fs filename content).trace.map (fun i => i.approach)).count
          .gateway = (if s.grpcGatewayEnabled = true then 1 else 0)
      ∧ (s.grpcGatewayEnabled = false →
          contains (GenerateGRPC env exec fs filename content).report (gatewaySkipNote env)
            ∧ contains (gatewaySkipNote env) "skipping gateway generation"
            ∧ (GenerateGRPC env exec fs filename content).report
                = successReport s.filePath.render s.outputDir.render
                    (runApproaches exec s).finalOutput (runApproaches exec s).debugInfo
                    (afterList (runApproaches exec s).fs s.outputDir)) := by
  have hF : (runApproaches exec s).finalErr = none := by
    rw [runApproaches_finalErr]
    rcases hok with h | ⟨h1, h2⟩ | ⟨h1, h2, h3⟩
    · simp [h]
    · simp [h1, h2]
    · simp [h1, h2, h3]
  have ht := GenerateGRPC_trace env exec fs filename content s hs
  rw [finish_trace, runApproaches_trace] at ht
  rw [ht, GenerateGRPC_report env exec fs filename content s hs]
  refine ⟨finish_success exec s _ hF, ?_, ?_⟩
  · by_cases h1 : (outcome1 exec s).err = none <;>
      by_cases h2 : (outcome2 exec s).err = none <;>
      by_cases hg : s.grpcGatewayEnabled = true <;>
      simp [h1, h2, hg, hF, invocation_approach]
  · intro hg
    have hrep : (finish exec s (runApproaches exec s)).report
        = successReport s.filePath.render s.outputDir.render
            (runApproaches exec s).finalOutput (runApproaches exec s).debugInfo
            (afterList (runApproaches exec s).fs s.outputDir) := by
      simp [finish, hF, hg]
    refine ⟨?_, ?_, hrep⟩
    · exact contains_trans (finish_contains_debugInfo exec s _)
        (contains_trans (runApproaches_contains_start exec s) (setup_skip_note hs hg))
    · unfold gatewaySkipNote
      exact contains_append_right _ (by decide)


/-! ## The schema store: `SavePB` then `ReadPB` (C10) -/

theorem prefix_dropLast {q p : Path} (h : q <+: p) (hne : q ≠ p) : q <+: p.dropLast := by
  obtain ⟨t, rfl⟩ := h
  have ht : t ≠ [] := by
    intro e; subst e; simp at hne
  rw [List.dropLast_append_of_ne_nil _ ht]
  exact List.prefix_append _ _

theorem FS.Stat_ok_dir {fs : FS} {p : Path} (h : fs.Stat p = .ok .dir) :
    fs.blocked p = false ∧ fs.get p = some .dir := by
  unfold FS.Stat at h
  split at h
  · cases h
  · rename_i hb
    split at h
    · cases h
    · rename_i n hn
      simp only [Except.ok.injEq] at h
      subst h
      exact ⟨by simpa using hb, hn⟩

/-- After a successful `WriteFile` the path is a regular file with the written
content. -/
theorem FS.Stat_after_write {fs fs2 : FS} {p : Path} {content : String}
    (h : fs.WriteFile p content = .ok fs2) : fs2.Stat p = .ok (.file content) := by
  obtain ⟨hp0, hfs2, hst, -⟩ := FS.WriteFile_ok h
  obtain ⟨hb, hd⟩ := FS.Stat_ok_dir hst
  have hnb : fs2.blocked p = false := by
    rw [Bool.eq_false_iff]
    intro hblk
    obtain ⟨q, c, hpre, hne, hq⟩ := (FS.blocked_iff fs2 p).mp hblk
    rw [hfs2, FS.get_set_ne _ hp0 _ hne] at hq
    have hq2 := prefix_dropLast hpre hne
    by_cases e : q = p.dropLast
    · rw [e, hd] at hq; cases hq
    · have : fs.blocked p.dropLast = true :=
        (FS.blocked_iff fs p.dropLast).mpr ⟨q, c, hq2, e, hq⟩
      rw [hb] at this; cases this
  unfold FS.Stat
  rw [hnb, hfs2, FS.get_set_self _ hp0]
  rfl

theorem FS.ReadFile_after_write {fs fs2 : FS} {p : Path} {content : String}
    (h : fs.WriteFile p content = .ok fs2) : fs2.ReadFile p = .ok content := by
  simp [FS.ReadFile, FS.Stat_after_write h]

theorem head_append_left {a : String} (b : String) {c : Char} (h : a.data.head? = some c) :
    (a ++ b).data.head? = some c := by
  rw [String.data_append]
  cases hd : a.data with
  | nil => rw [hd] at h; cases h
  | cons x xs => rw [hd] at h; simpa using h

theorem not_startsWith_of_head {a p : String} {c d : Char} (ha : a.data.head? = some c)
    (hp : p.data.head? = some d) (hcd : c ≠ d) : ¬ startsWith a p := by
  rintro ⟨t, ht⟩
  rw [← ht] at ha
  cases hpd : p.data with
  | nil => rw [hpd] at hp; cases hp
  | cons x xs =>
    rw [hpd] at hp ha
    simp only [List.cons_append, List.head?_cons, Option.some.injEq] at hp ha
    exact hcd (ha.symm.trans hp)

/-- A text that starts with `Error` does not start with `File saved`. -/
theorem not_saved_of_error {a : String} (ha : a.data.head? = some 'E') :
    ¬ startsWith a "File saved successfully: " :=
  not_startsWith_of_head ha (show _ = some 'F' by decide) (by decide)

/-- What a successful `SavePB` did. -/
theorem SavePB_ok {env : Env} {fs : FS} {filename content : String}
    (h : startsWith (SavePB env fs filename content).1 "File saved successfully: ") :
    ∃ cwd fs1 fs2, env.getwd = .ok cwd
      ∧ fs.MkdirAll (appRootOf cwd fs ++ ["pb"]) = .ok fs1
      ∧ fs1.WriteFile (Join (appRootOf cwd fs ++ ["pb"]) [filename]) content = .ok fs2
      ∧ (SavePB env fs filename content).2 = fs2 := by
  unfold SavePB at h ⊢
  cases hcwd : env.getwd with
  | error err =>
    simp only [hcwd] at h
    exact absurd h (not_saved_of_error (head_append_left _ (by decide)))
  | ok cwd =>
    simp only [hcwd, Join_pb] at h ⊢
    cases h1 : fs.MkdirAll (appRootOf cwd fs ++ ["pb"]) with
    | error err =>
      simp only [h1] at h
      exact absurd h (not_saved_of_error (head_append_left _ (head_append_left _
        (head_append_left _ (by decide)))))
    | ok fs1 =>
      simp only [h1] at h ⊢
      cases hst : fs1.Stat (appRootOf cwd fs ++ ["pb"]) with
      | error e =>
        simp only [hst] at h
        exact absurd h (not_saved_of_error (head_append_left _ (head_append_left _
          (head_append_left _ (by decide)))))
      | ok n =>
        simp only [hst] at h ⊢
        cases h2 : fs1.WriteFile (Join (appRootOf cwd fs ++ ["pb"]) [filename]) content with
        | error err =>
          simp only [h2] at h
          exact absurd h (not_saved_of_error (head_append_left _ (head_append_left _
            (head_append_left _ (by decide)))))
        | ok fs2 =>
          simp only [h2, FS.Stat_after_write h2] at h ⊢
          refine ⟨cwd, fs1, fs2, rfl, h1, h2, ?_⟩
          split <;> rfl

theorem mem_of_isPrefix {α : Type} {l1 l2 : List α} (h : l1 <+: l2) {x : α} (hx : x ∈ l1) :
    x ∈ l2 := h.subset hx

/-- A directory of a well-formed file system has directories above it. -/
theorem FS.WellFormed.dir_above {fs : FS} (hwf : fs.WellFormed) {p q : Path}
    (hp : fs.get p = some .dir) (hq : q <+: p) : fs.get q = some .dir := by
  by_cases hp0 : p = []
  · subst hp0
    have : q = [] := List.prefix_nil.mp hq
    subst this; exact hp
  · have hp2 := hp
    simp only [FS.get, hp0, if_false, Option.map_eq_some'] at hp2
    obtain ⟨e, he, -⟩ := hp2
    have hmem := List.mem_of_find?_eq_some he
    have he1 : e.1 = p := by simpa using List.find?_some he
    rcases hwf e hmem q ((List.mem_inits _ _).mpr (he1 ▸ hq)) with h | h
    · exact h
    · rw [h, he1]; exact hp


theorem IsNotExist_Stat (fs : FS) (p : Path) :
    IsNotExist (fs.Stat p) = true ↔ fs.blocked p = false ∧ fs.get p = none := by
  unfold FS.Stat
  cases hb : fs.blocked p with
  | true => simp [IsNotExist]
  | false =>
    cases hg : fs.get p with
    | none => simp [IsNotExist]
    | some n => simp [IsNotExist]

theorem main_go_not_in_pb_dir : "main.go" ∉ hardcodedRoot ++ ["pb"] := by decide

/-- Saving a schema under a valid name does not change what `os.Stat("main.go")`
reports, so the application root stays the same. -/
theorem appRootOf_after_save {fs fs1 fs2 : FS} {cwd : Path} {name content : String}
    (hname : validSchemaName name) (hwf : fs.WellFormed) (hcwd : fs.Stat cwd = .ok .dir)
    (h1 : fs.MkdirAll (appRootOf cwd fs ++ ["pb"]) = .ok fs1)
    (h2 : fs1.WriteFile (appRootOf cwd fs ++ ["pb"] ++ [name]) content = .ok fs2) :
    appRootOf cwd fs2 = appRootOf cwd fs := by
  obtain ⟨hp0, hfs2, -, hnd⟩ := FS.WriteFile_ok h2
  have hmne : cwd ++ ["main.go"] ≠ appRootOf cwd fs ++ ["pb"] ++ [name] := by
    intro e
    have := congrArg List.getLast? e
    rw [List.getLast?_concat, List.getLast?_concat] at this
    exact hname.plain.2.2.2 (Option.some.inj this).symm
  have hget2 : fs2.get (cwd ++ ["main.go"]) = fs1.get (cwd ++ ["main.go"]) := by
    rw [hfs2, FS.get_set_ne _ hp0 _ hmne]
  -- a regular file above `main.go` would have stopped `MkdirAll`
  have hnb : fs.blocked (cwd ++ ["main.go"]) = true → appRootOf cwd fs = cwd := by
    intro hb
    simp [appRootOf, resolve_main_go, FS.Stat, hb, IsNotExist]
  have hnot_blocked : fs.blocked (cwd ++ ["main.go"]) = false := by
    rw [Bool.eq_false_iff]
    intro hb
    obtain ⟨q, c, hpre, hne, hq⟩ := (FS.blocked_iff fs _).mp hb
    have hq2 : q <+: cwd := by
      have := prefix_dropLast hpre hne
      rwa [List.dropLast_concat] at this
    rw [hnb hb] at h1
    exact FS.mkdirs_ok_not_file h1
      ((List.mem_inits _ _).mpr (hq2.trans (List.prefix_append _ _))) c hq
  unfold appRootOf
  rw [resolve_main_go]
  cases hg : fs.get (cwd ++ ["main.go"]) with
  | some n =>
    have e1 : IsNotExist (fs.Stat (cwd ++ ["main.go"])) = false := by
      rw [Bool.eq_false_iff, Ne, IsNotExist_Stat, hg]; simp
    have e2 : IsNotExist (fs2.Stat (cwd ++ ["main.go"])) = false := by
      rw [Bool.eq_false_iff, Ne, IsNotExist_Stat, hget2]
      rcases FS.mkdirs_get h1 (cwd ++ ["main.go"]) with h | ⟨h, -, -⟩
      · rw [h, hg]; simp
      · rw [hg] at h; cases h
    rw [e1, e2]
  | none =>
    have e1 : IsNotExist (fs.Stat (cwd ++ ["main.go"])) = true := by
      rw [IsNotExist_Stat]; exact ⟨hnot_blocked, hg⟩
    have hroot : appRootOf cwd fs = hardcodedRoot := by
      simp [appRootOf, resolve_main_go, e1]
    have e2 : IsNotExist (fs2.Stat (cwd ++ ["main.go"])) = true := by
      rw [IsNotExist_Stat]
      constructor
      · rw [Bool.eq_false_iff]
        intro hb
        obtain ⟨q, c, hpre, hne, hq⟩ := (FS.blocked_iff fs2 _).mp hb
        have hq2 : q <+: cwd := by
          have := prefix_dropLast hpre hne
          rwa [List.dropLast_concat] at this
        by_cases e : q = appRootOf cwd fs ++ ["pb"] ++ [name]
        · -- the saved file would lie above the working directory
          have hdir : fs.get q = some .dir := hwf.dir_above (FS.Stat_ok_dir hcwd).2 hq2
          have : fs1.get q = some .dir := by
            rcases FS.mkdirs_get h1 q with h | ⟨h, -, -⟩
            · rw [h, hdir]
            · rw [hdir] at h; cases h
          exact hnd (e ▸ this)
        · rw [hfs2, FS.get_set_ne _ hp0 _ e] at hq
          have hq3 := (FS.mkdirs_file_iff h1 q c).mp hq
          have : fs.blocked (cwd ++ ["main.go"]) = true :=
            (FS.blocked_iff fs _).mpr ⟨q, c, hpre, hne, hq3⟩
          rw [hnot_blocked] at this; cases this
      · rw [hget2]
        rcases FS.mkdirs_get h1 (cwd ++ ["main.go"]) with h | ⟨-, hmem, -⟩
        · rw [h, hg]
        · rw [hroot, List.mem_inits] at hmem
          exact absurd (mem_of_isPrefix hmem (by simp)) main_go_not_in_pb_dir
    rw [e1, e2]

/-- C10: over a well-formed file system in which the working directory exists,
for every valid schema file name and every content, when `SavePB(name, content)`
succeeds (it returns `File saved successfully: ...`), `ReadPB(name)` on the file
system it leaves returns exactly the submitted content. -/
theorem save_then_read (env : Env) (fs : FS) (name content : String)
    (hname : validSchemaName name) (hwf : fs.WellFormed)
    (hcwd : ∀ cwd, env.getwd = .ok cwd → fs.Stat cwd = .ok .dir)
    (hsave : startsWith (SavePB env fs name content).1 "File saved successfully: ") :
    ReadPB env (SavePB env fs name content).2 name = content := by
  obtain ⟨cwd, fs1, fs2, hwd, h1, h2, hfs⟩ := SavePB_ok hsave
  rw [Join_validName _ hname] at h2
  rw [hfs]
  have hroot := appRootOf_after_save hname hwf (hcwd cwd hwd) h1 h2
  simp only [ReadPB, hwd, hroot, Join_pb_validName _ hname, FS.ReadFile_after_write h2]


/-! ## The schema file list of `GenerateGRPC` -/

theorem relComps_append (base t : Path) : relComps base (base ++ t) = t := by
  induction base with
  | nil => cases t <;> simp [relComps]
  | cons b bs ih => simp [relComps, ih]

theorem relOrBase_pb (appRoot : Path) (n : String) :
    relOrBase appRoot (appRoot ++ ["pb", n]) = "pb/" ++ n := by
  have h : relComps appRoot (appRoot ++ ["pb", n]) = ["pb", n] := relComps_append _ _
  have e : "pb" ++ "/" = "pb/" := by decide
  simp only [relOrBase, Rel, h, String.intercalate, String.intercalate.go, e]

theorem filterMap_fst_sublist {α β : Type} (g : α → Option β) (l : List α) :
    List.Sublist ((l.filterMap (fun n => (g n).map (fun x => (n, x)))).map Prod.fst) l := by
  induction l with
  | nil => simp
  | cons a l ih =>
    cases h : g a with
    | none => simpa [List.filterMap_cons, h] using ih.trans (List.sublist_cons_self _ _)
    | some x => simpa [List.filterMap_cons, h] using ih

theorem FS.names_nodup (fs : FS) (dir : Path) : (fs.names dir).Nodup := by
  unfold FS.names
  exact (List.perm_insertionSort _ _).nodup_iff.mpr (List.nodup_dedup _)

/-- The entries of a directory listing have distinct names. -/
theorem FS.ReadDir_nodup {fs : FS} {dir : Path} {es : List (String × Node)}
    (h : fs.ReadDir dir = .ok es) : (es.map Prod.fst).Nodup := by
  unfold FS.ReadDir at h
  split at h
  · cases h
  · cases h
  · simp only [Except.ok.injEq] at h
    subst h
    exact (FS.names_nodup fs dir).sublist (filterMap_fst_sublist _ _)

/-- What `Glob` finds, relative to the application root: distinct paths `pb/<name>`. -/
theorem FS.Glob_rel {fs : FS} {appRoot : Path} {pbFiles : List Path}
    (h : fs.Glob (appRoot ++ ["pb"]) = .ok pbFiles) :
    ∃ ns : List String, ns.Nodup ∧ pbFiles.map (relOrBase appRoot)
      = ns.map (fun n => "pb/" ++ n) := by
  unfold FS.Glob at h
  cases hr : fs.ReadDir (appRoot ++ ["pb"]) with
  | error e =>
    simp only [hr, Except.ok.injEq] at h
    subst h
    exact ⟨[], List.nodup_nil, rfl⟩
  | ok es =>
    simp only [hr, Except.ok.injEq] at h
    subst h
    refine ⟨(es.filter (fun e => ".proto".data <:+ e.1.data)).map Prod.fst, ?_, ?_⟩
    · exact (FS.ReadDir_nodup hr).sublist ((List.filter_sublist _).map _)
    · simp only [List.map_map]
      apply List.map_congr_left
      intro e _
      simp [Function.comp, relOrBase_pb]

theorem pb_path_injective {a b : String} (h : "pb/" ++ a = "pb/" ++ b) : a = b := by
  have hd := congrArg String.data h
  rw [String.data_append, String.data_append] at hd
  exact String.ext (List.append_cancel_left hd)

theorem not_isMappingOption_pb_path (n : String) : ¬ isMappingOption ("pb/" ++ n) := by
  have hh : ("pb/" ++ n).data.head? = some 'p' :=
    head_append_left _ (by decide)
  rintro ⟨h | h, -⟩
  · exact not_startsWith_of_head hh (show _ = some '-' by decide) (by decide) h
  · exact not_startsWith_of_head hh (show _ = some '-' by decide) (by decide) h

/-- The schema files `GenerateGRPC` passes to the compiler are distinct paths, and
none of them has the form of a mapping option. -/
theorem setup_relPbFiles {env : Env} {fs : FS} {filename content : String} {s : Setup}
    (h : setup env fs filename content = .ok s) :
    s.relPbFiles.Nodup ∧ ∀ f ∈ s.relPbFiles, ¬ isMappingOption f := by
  unfold setup at h
  split at h
  · cases h
  · rename_i sv _
    split at h
    · cases h
    · rename_i t _
      unfold prepare at h
      cases hw : sv.fs.WriteFile (Join sv.appRoot ["run_protoc.sh"])
          (tempScript sv.appRoot.render t.protocPath) with
      | error err => simp [hw] at h
      | ok fs1 =>
        simp only [hw, Join_pb] at h
        split at h
        · cases h
        · rename_i pbFiles hglob
          simp only [Except.ok.injEq] at h
          subst h
          obtain ⟨ns, hns, hmap⟩ := FS.Glob_rel hglob
          simp only [hmap]
          refine ⟨hns.map (fun a b hab => pb_path_injective hab), ?_⟩
          intro f hf
          obtain ⟨n, -, rfl⟩ := List.mem_map.mp hf
          exact not_isMappingOption_pb_path n


/-! ## The theorems on the sample installation -/

/-- C1, on an instance: two failures, then a success: three approaches are run. -/
theorem approaches_short_circuit_witness :
    setup demoEnv demoFS "a.proto" "package demo;" = .ok demoSetup
      ∧ (primary (GenerateGRPC demoEnv demoExec demoFS "a.proto" "package demo;").trace).length
          = if (outcome1 demoExec demoSetup).err = none then 1
            else if (outcome2 demoExec demoSetup).err = none then 2 else 3 :=
  ⟨rfl, (approaches_short_circuit demoEnv demoExec demoFS "a.proto" "package demo;" demoSetup
    rfl).2.2.2.2.2⟩

/-- C5, on an instance: the first attempt is recorded in the report. -/
theorem report_records_every_attempt_witness :
    setup demoEnv demoFS "a.proto" "package demo;" = .ok demoSetup
      ∧ recorded (GenerateGRPC demoEnv demoExec demoFS "a.proto" "package demo;").report
          (outcome1 demoExec demoSetup) :=
  ⟨rfl, (report_records_every_attempt demoEnv demoExec demoFS "a.proto" "package demo;" demoSetup
    rfl).1⟩

/-- C6, on an instance: the report names the saved file. -/
theorem failure_iff_all_approaches_failed_witness :
    setup demoEnv demoFS "a.proto" "package demo;" = .ok demoSetup
      ∧ startsWith (GenerateGRPC demoEnv demoExec demoFS "a.proto" "package demo;").report
          ("File saved successfully: " ++ demoSetup.filePath.render) :=
  ⟨rfl, (failure_iff_all_approaches_failed demoEnv demoExec demoFS "a.proto" "package demo;" demoSetup
    rfl).1⟩

/-- An instance of `no_process_without_tools`: in the project without tools no
process is started. -/
theorem no_process_without_tools_witness :
    saveSchema demoEnv bareFS "a.proto" "package demo;" = .ok bareSaved
      ∧ (IsNotExist (bareSaved.fs.Stat (Join bareSaved.appRoot ["bin", "protoc"])) = true
          ∧ demoEnv.lookPath "protoc" = none)
      ∧ (GenerateGRPC demoEnv demoExec bareFS "a.proto" "package demo;").trace = [] :=
  ⟨rfl, ⟨rfl, rfl⟩, (no_process_without_tools demoEnv demoExec bareFS "a.proto" "package demo;" bareSaved
    rfl (Or.inl ⟨rfl, rfl⟩)).1⟩

/-- C8 as stated fails: with the compiler absent, the call returns the
compiler-not-found text, and the output directory, which did not exist before the
call, is a directory after it. -/
theorem output_directory_created_without_compiler :
    IsNotExist (bareSaved.fs.Stat (Join bareSaved.appRoot ["bin", "protoc"])) = true
      ∧ demoEnv.lookPath "protoc" = none
      ∧ (GenerateGRPC demoEnv demoExec bareFS "a.proto" "package demo;").report
          = protocNotFound "/app/pb/a.proto" "/app/bin/protoc"
      ∧ bareFS.get ["app", "grpc_output"] = none
      ∧ (GenerateGRPC demoEnv demoExec bareFS "a.proto" "package demo;").fs.get ["app", "grpc_output"]
          = some .dir
      ∧ ¬ ∀ p, ["app", "grpc_output"] <+: p →
          (GenerateGRPC demoEnv demoExec bareFS "a.proto" "package demo;").fs.get p = bareFS.get p := by
  refine ⟨rfl, rfl, rfl, rfl, rfl, ?_⟩
  intro h
  have := h ["app", "grpc_output"] (List.prefix_refl _)
  exact absurd this (by decide)

/-- C8, amended, on an instance. -/
theorem output_directory_content_kept_witness :
    saveSchema demoEnv bareFS "a.proto" "package demo;" = .ok bareSaved
      ∧ (IsNotExist (bareSaved.fs.Stat (Join bareSaved.appRoot ["bin", "protoc"])) = true
          ∧ demoEnv.lookPath "protoc" = none)
      ∧ (GenerateGRPC demoEnv demoExec bareFS "a.proto" "package demo;").fs.get bareSaved.outputDir
          = some .dir :=
  ⟨rfl, ⟨rfl, rfl⟩, (output_directory_content_kept demoEnv demoExec bareFS "a.proto" "package demo;"
    bareSaved rfl ⟨rfl, rfl⟩).2.2.2.1⟩

/-- C9, on an instance: the third approach succeeds and the gateway plugin is
absent. -/
theorem gateway_never_fails_generation_witness :
    setup demoEnv demoFS "a.proto" "package demo;" = .ok demoSetup
      ∧ ((outcome1 demoExec demoSetup).err ≠ none ∧ (outcome2 demoExec demoSetup).err ≠ none
          ∧ (outcome3 demoExec demoSetup).err = none)
      ∧ startsWith (GenerateGRPC demoEnv demoExec demoFS "a.proto" "package demo;").report
          (successPrefix demoSetup.filePath.render) :=
  ⟨rfl, ⟨by decide, by decide, by decide⟩,
    (gateway_never_fails_generation demoEnv demoExec demoFS "a.proto" "package demo;" demoSetup rfl
      (Or.inr (Or.inr ⟨by decide, by decide, by decide⟩))).1⟩

/-- C10, on an instance. -/
theorem save_then_read_witness :
    validSchemaName "a.proto" ∧ demoFS.WellFormed
      ∧ (∀ cwd, demoEnv.getwd = .ok cwd → demoFS.Stat cwd = .ok .dir)
      ∧ startsWith (SavePB demoEnv demoFS "a.proto" "package demo;").1 "File saved successfully: "
      ∧ ReadPB demoEnv (SavePB demoEnv demoFS "a.proto" "package demo;").2 "a.proto" = "package demo;" :=
  ⟨by decide, by decide, fun cwd h => by cases h; decide, by decide,
    save_then_read demoEnv demoFS "a.proto" "package demo;" (by decide) (by decide)
      (fun cwd h => by cases h; decide) (by decide)⟩

/-! ## The method name of a full method name (C17) -/

theorem scanSlash_of_no_slash (cs : List Char) (h : '/' ∉ cs) (n : Nat) :
    scanSlash cs n = cs := by
  induction n with
  | zero => rfl
  | succ i ih =>
    have hne : cs[i]? ≠ some '/' := by
      intro e
      obtain ⟨hi, e2⟩ := List.getElem?_eq_some.mp e
      exact h (e2 ▸ List.getElem_mem _)
    simp only [scanSlash, hne, if_false]
    exact ih

theorem scanSlash_after_last (pre m : List Char) (h : '/' ∉ m) (k : Nat) (hk : k ≤ m.length) :
    scanSlash (pre ++ '/' :: m) (pre.length + 1 + k) = m := by
  induction k with
  | zero =>
    have hidx : (pre ++ '/' :: m)[pre.length]? = some '/' := by
      rw [List.getElem?_append_right (Nat.le_refl _)]
      simp
    simp only [Nat.add_zero, scanSlash, hidx, if_true]
    simp
  | succ k ih =>
    have hlt : k < m.length := hk
    have hidx : (pre ++ '/' :: m)[pre.length + 1 + k]? = some m[k] := by
      rw [List.getElem?_append_right (by omega)]
      have : pre.length + 1 + k - pre.length = k + 1 := by omega
      rw [this]
      simp [List.getElem?_eq_getElem hlt]
    have hne : (pre ++ '/' :: m)[pre.length + 1 + k]? ≠ some '/' := by
      rw [hidx]
      intro e
      exact h (by rw [← Option.some.inj e]; exact List.getElem_mem _)
    have : pre.length + 1 + (k + 1) = (pre.length + 1 + k) + 1 := by omega
    rw [this, scanSlash, if_neg hne]
    exact ih (Nat.le_of_lt hlt)

theorem getMethodName_after_last (pre m : List Char) (h : '/' ∉ m) :
    scanSlash (pre ++ '/' :: m) (pre ++ '/' :: m).length = m := by
  have hl : (pre ++ '/' :: m).length = pre.length + 1 + m.length := by
    simp; omega
  rw [hl]
  exact scanSlash_after_last pre m h m.length (Nat.le_refl _)

/-- A character sequence with a slash splits at its last slash. -/
theorem exists_last_slash (cs : List Char) (h : '/' ∈ cs) :
    ∃ pre m, cs = pre ++ '/' :: m ∧ '/' ∉ m := by
  induction cs with
  | nil => cases h
  | cons c cs ih =>
    by_cases hcs : '/' ∈ cs
    · obtain ⟨pre, m, e, hm⟩ := ih hcs
      exact ⟨c :: pre, m, by rw [e]; rfl, hm⟩
    · have hc : c = '/' := by
        rcases List.mem_cons.mp h with e | e
        · exact e.symm
        · exact absurd e hcs
      exact ⟨[], cs, by rw [hc]; rfl, hcs⟩

/-- C17: for every service name `s` and every method name `m` without a slash,
`getMethodNameFromFullMethod("/" + s + "/" + m) = m`; in general the result is
the part of the input after its last slash, and the input itself when it has no
slash, so the result never contains a slash. -/
theorem method_name_after_last_slash :
    (∀ s m : String, '/' ∉ m.data → getMethodNameFromFullMethod ("/" ++ s ++ "/" ++ m) = m)
      ∧ (∀ pre m : String, '/' ∉ m.data → getMethodNameFromFullMethod (pre ++ "/" ++ m) = m)
      ∧ (∀ x : String, '/' ∉ x.data → getMethodNameFromFullMethod x = x)
      ∧ ∀ x : String, '/' ∉ (getMethodNameFromFullMethod x).data := by
  have general : ∀ pre m : String, '/' ∉ m.data →
      getMethodNameFromFullMethod (pre ++ "/" ++ m) = m := by
    intro pre m hm
    have hd : (pre ++ "/" ++ m).data = pre.data ++ '/' :: m.data := by
      simp [String.data_append]
    unfold getMethodNameFromFullMethod
    rw [hd, getMethodName_after_last _ _ hm]
  refine ⟨fun s m hm => general ("/" ++ s) m hm, general, ?_, ?_⟩
  · intro x hx
    unfold getMethodNameFromFullMethod
    rw [scanSlash_of_no_slash _ hx]
  · intro x
    unfold getMethodNameFromFullMethod
    by_cases hx : '/' ∈ x.data
    · obtain ⟨pre, m, e, hm⟩ := exists_last_slash _ hx
      rw [e, getMethodName_after_last _ _ hm]
      exact hm
    · rw [scanSlash_of_no_slash _ hx]
      exact hx

/-! ## The publish option of a method (C12, C13) -/

theorem methodsLoop_of_mem (methods : List MethodDescriptor) (method : MethodDescriptor)
    (b : Bool) (hm : method ∈ methods)
    (hmu : ∀ m' ∈ methods, m'.name = method.name → m' = method)
    (hopt : method.options = some ⟨some b⟩) :
    methodsLoop method.name methods = some (b, "") := by
  induction methods with
  | nil => cases hm
  | cons m ms ih =>
    by_cases hn : m.name = method.name
    · have e : m = method := hmu m (List.mem_cons_self _ _) hn
      subst e
      simp [methodsLoop, hopt]
    · have hmem : method ∈ ms := by
        rcases List.mem_cons.mp hm with e | e
        · exact absurd (e ▸ rfl) hn
        · exact e
      simp only [methodsLoop, ne_eq, hn, not_false_eq_true, if_true]
      exact ih hmem (fun m' hm' => hmu m' (List.mem_cons_of_mem _ hm'))

theorem servicesLoop_of_mem (services : List ServiceDescriptor) (service : ServiceDescriptor)
    (methodName : String) (r : Bool × String) (hs : service ∈ services)
    (hname : service.name = "ExampleService")
    (hsu : ∀ s' ∈ services, s'.name = "ExampleService" → s' = service)
    (hr : methodsLoop methodName service.methods = some r) :
    servicesLoop methodName services = some r := by
  induction services with
  | nil => cases hs
  | cons s ss ih =>
    by_cases hn : s.name = "ExampleService"
    · have e : s = service := hsu s (List.mem_cons_self _ _) hn
      subst e
      simp [servicesLoop, hn, hr]
    · have hmem : service ∈ ss := by
        rcases List.mem_cons.mp hs with e | e
        · exact absurd (e ▸ hname) hn
        · exact e
      simp only [servicesLoop, ne_eq, hn, not_false_eq_true, if_true]
      exact ih hmem (fun s' hs' => hsu s' (List.mem_cons_of_mem _ hs'))

/-- C12: for every file descriptor and every method of its service
`ExampleService` whose publish option is declared with value `b`,
`GetPublishOptionFromMethodName` of the method's name returns `b`.  (The service
is the one named `ExampleService` and the method the one of that name in it:
names are unique in a descriptor.) -/
theorem declared_publish_option_is_returned (fd : FileDescriptor) (service : ServiceDescriptor)
    (method : MethodDescriptor) (b : Bool)
    (hs : service ∈ fd.services) (hname : service.name = "ExampleService")
    (hsu : ∀ s' ∈ fd.services, s'.name = "ExampleService" → s' = service)
    (hm : method ∈ service.methods)
    (hmu : ∀ m' ∈ service.methods, m'.name = method.name → m' = method)
    (hopt : method.options = some ⟨some b⟩) :
    (GetPublishOptionFromMethodName (some fd) method.name).1 = b := by
  have h := servicesLoop_of_mem fd.services service method.name (b, "") hs hname hsu
    (methodsLoop_of_mem service.methods method b hm hmu hopt)
  simp [GetPublishOptionFromMethodName, h]

theorem methodsLoop_of_not_mem (methods : List MethodDescriptor) (methodName : String)
    (h : ∀ m ∈ methods, m.name ≠ methodName) : methodsLoop methodName methods = none := by
  induction methods with
  | nil => rfl
  | cons m ms ih =>
    have hn : m.name ≠ methodName := h m (List.mem_cons_self _ _)
    simp only [methodsLoop, hn, ne_eq, not_false_eq_true, if_true]
    exact ih (fun m' hm' => h m' (List.mem_cons_of_mem _ hm'))

theorem servicesLoop_of_not_mem (services : List ServiceDescriptor) (methodName : String)
    (h : ∀ s ∈ services, s.name = "ExampleService" → ∀ m ∈ s.methods, m.name ≠ methodName) :
    servicesLoop methodName services = none := by
  induction services with
  | nil => rfl
  | cons s ss ih =>
    have ih2 := ih (fun s' hs' => h s' (List.mem_cons_of_mem _ hs'))
    by_cases hn : s.name = "ExampleService"
    · simp [servicesLoop, hn, methodsLoop_of_not_mem _ _ (h s (List.mem_cons_self _ _) hn), ih2]
    · simp [servicesLoop, hn, ih2]

/-- C13: for every method name that is not the name of a method of the service
`ExampleService` in the file descriptor, the empty name included, and also when
the file descriptor is missing, `GetPublishOptionFromMethodName` returns the
default value true. -/
theorem unknown_method_defaults_to_true (fd : FileDescriptor) (methodName : String)
    (h : ∀ s ∈ fd.services, s.name = "ExampleService" →
      ∀ m ∈ s.methods, m.name ≠ methodName) :
    (GetPublishOptionFromMethodName (some fd) methodName).1 = true
      ∧ (GetPublishOptionFromMethodName none methodName).1 = true := by
  simp [GetPublishOptionFromMethodName, servicesLoop_of_not_mem _ _ h]

/-! ## The interceptor (C16) -/

theorem isInternal_iff (ctx : Context) :
    isInternal ctx = true
      ↔ ∃ md, ctx.incoming = some md ∧ ∃ e ∈ md, e.1 = "x-internal-service" := by
  unfold isInternal metadataGet
  cases hinc : ctx.incoming with
  | none => simp
  | some md =>
    simp only [Option.isSome_map', List.find?_isSome, decide_eq_true_eq, Option.some.injEq,
      exists_eq_left']

/-- C16: the interceptor rejects a request if and only if the incoming metadata
carries the key `x-internal-service` and the publish option of the called method
is false: then it returns a nil response with a `PermissionDenied` error and does
not call the handler.  In every other case (no metadata, no such key, or publish
true) it calls the handler exactly once, with the same context and request, and
returns the handler's response and error unchanged. -/
theorem interceptor_rejects_iff {Req Resp : Type} (fileDesc : Option FileDescriptor)
    (ctx : Context) (req : Req) (info : UnaryServerInfo) (handler : UnaryHandler Req Resp) :
    (isInternal ctx = true
        ↔ ∃ md, ctx.incoming = some md ∧ ∃ e ∈ md, e.1 = "x-internal-service")
      ∧ ((PublishInterceptor fileDesc ctx req info handler).handled = []
          ↔ isInternal ctx = true
            ∧ (GetPublishOptionFromMethodName fileDesc
                (getMethodNameFromFullMethod info.FullMethod)).1 = false)
      ∧ ((PublishInterceptor fileDesc ctx req info handler).handled = [] →
          (PublishInterceptor fileDesc ctx req info handler).resp = none
            ∧ (PublishInterceptor fileDesc ctx req info handler).err
                = some ⟨PermissionDenied, "该接口不允许内部服务请求"⟩)
      ∧ ((PublishInterceptor fileDesc ctx req info handler).handled ≠ [] →
          (PublishInterceptor fileDesc ctx req info handler).handled = [(ctx, req)]
            ∧ (PublishInterceptor fileDesc ctx req info handler).resp = (handler ctx req).1
            ∧ (PublishInterceptor fileDesc ctx req info handler).err
                = (handler ctx req).2) := by
  refine ⟨isInternal_iff ctx, ?_⟩
  unfold PublishInterceptor
  cases hi : isInternal ctx <;>
    cases hp : (GetPublishOptionFromMethodName fileDesc
      (getMethodNameFromFullMethod info.FullMethod)).1 <;>
    simp [hi, hp]

/-! ## The registration with `WithPublishOnly` (C14) -/

/-- The server after `RegisterExampleServiceWithOptions` is the one the generated
registration gives, whatever the options are. -/
theorem registration_ignores_options {Server Srv : Type} (register : Server → Srv → Server)
    (fileDesc : Option FileDescriptor) (serviceDesc : ServiceDesc) (s : Server) (srv : Srv)
    (opts : List CustomServerOption) :
    (RegisterExampleServiceWithOptions register fileDesc serviceDesc s srv opts).1
      = register s srv := rfl

set_option maxRecDepth 100000 in
/-- C14 fails on the code: with `WithPublishOnly(true)` the method
`CreateExample`, whose publish option is false, is among the registered methods;
the call only prints that it skips it. -/
theorem publish_false_method_is_registered :
    (GetPublishOptionFromMethodName (some exampleDescriptor) "CreateExample").1 = false
      ∧ "/example.ExampleService/CreateExample"
          ∈ (RegisterExampleServiceWithOptions
              (fun s (_ : Unit) => registerService exampleServiceDesc s)
              (some exampleDescriptor) exampleServiceDesc [] () [WithPublishOnly true]).1
      ∧ contains
          (RegisterExampleServiceWithOptions
              (fun s (_ : Unit) => registerService exampleServiceDesc s)
              (some exampleDescriptor) exampleServiceDesc [] () [WithPublishOnly true]).2
          "✗ 方法 /example.ExampleService/CreateExample 的 publish=false，跳过注册" := by
  decide

/-! ## Expired sessions (C15) -/

theorem mapGet_mapDelete_self {α : Type} (m : List (String × α)) (key : String) :
    mapGet (mapDelete m key) key = none := by
  simp [mapGet, mapDelete, List.find?_eq_none]

theorem mapGet_mapDelete_ne {α : Type} (m : List (String × α)) {key t : String}
    (h : t ≠ key) : mapGet (mapDelete m key) t = mapGet m t := by
  unfold mapGet mapDelete
  rw [List.find?_filter]
  congr 2
  funext e
  by_cases he : e.1 = t
  · simp [he, h]
  · simp [he]

/-- The error texts do not start like the success response. -/
theorem error_is_no_user_info :
    ¬ startsWith "\x7b\"error\":\"Invalid session\"\x7d" "\x7b\"success\":true"
      ∧ ¬ startsWith "\x7b\"error\":\"Session expired\"\x7d" "\x7b\"success\":true"
      ∧ ¬ startsWith "\x7b\"error\":\"User not found\"\x7d" "\x7b\"success\":true" := by
  decide

theorem userInfo_startsWith (id username email : String) :
    startsWith (userInfo id username email) "\x7b\"success\":true" := by
  unfold userInfo
  have e : "\x7b\"success\":true,\"user\":\x7b\"id\":\""
      = "\x7b\"success\":true" ++ ",\"user\":\x7b\"id\":\"" := by decide
  rw [e]
  repeat (first | with_reducible exact startsWith_refl _ | apply startsWith_append_left)

/-- C15: `GetCurrentUser` never returns user information for an expired session.
If a session is stored under the token and the current time is after its
`ExpiresAt`, the call returns the `Session expired` error and removes exactly
that session from the session map: every other session and the user map are
unchanged.  The call returns the success response, with the user's id, username
and email, only when the session exists, is not expired and its `UserID` is a key
of the user map. -/
theorem expired_session_is_removed (marshal : List (String × Session) → Except String String)
    (a : App) (fs : FS) (now : Int) (token : String) :
    (∀ session, mapGet a.sessions token = some session → now > session.ExpiresAt →
        (GetCurrentUser marshal a fs now token).text = "\x7b\"error\":\"Session expired\"\x7d"
          ∧ mapGet (GetCurrentUser marshal a fs now token).app.sessions token = none
          ∧ (∀ t, t ≠ token →
              mapGet (GetCurrentUser marshal a fs now token).app.sessions t
                = mapGet a.sessions t)
          ∧ (GetCurrentUser marshal a fs now token).app.users = a.users)
      ∧ (startsWith (GetCurrentUser marshal a fs now token).text "\x7b\"success\":true"
          ↔ ∃ session user, mapGet a.sessions token = some session
              ∧ ¬ now > session.ExpiresAt
              ∧ mapGet a.users session.UserID = some user
              ∧ (GetCurrentUser marshal a fs now token).text
                  = userInfo user.ID user.Username user.Email) := by
  obtain ⟨e1, e2, e3⟩ := error_is_no_user_info
  constructor
  · intro session hs hexp
    simp only [GetCurrentUser, hs, hexp, if_true]
    exact ⟨trivial, mapGet_mapDelete_self _ _, fun t ht => mapGet_mapDelete_ne _ ht, trivial⟩
  · unfold GetCurrentUser
    cases hs : mapGet a.sessions token with
    | none => simp [e1]
    | some session =>
      by_cases hexp : now > session.ExpiresAt
      · simp only [hexp, if_true]
        constructor
        · intro h; exact absurd h e2
        · rintro ⟨s, u, hs2, hne, -⟩
          cases hs2
          exact absurd hexp hne
      · simp only [hexp, if_false]
        cases hu : mapGet a.users session.UserID with
        | none =>
          constructor
          · intro h; exact absurd h e3
          · rintro ⟨s, u, hs2, -, hu2, -⟩
            cases hs2
            rw [hu] at hu2; cases hu2
        | some user =>
          constructor
          · intro _; exact ⟨session, user, rfl, hexp, hu, rfl⟩
          · intro _; exact userInfo_startsWith _ _ _

/-! ## Saving a schema twice (C11) -/

theorem Join_main_go (cwd : Path) : Join cwd ["main.go"] = cwd ++ ["main.go"] := by
  have h1 : components "main.go" = ["main.go"] := by decide
  simp [Join, h1, cleanStep]

/-- The call `mkdirs` changes nothing when the directories exist. -/
theorem FS.mkdirs_of_dirs (fs : FS) (qs : List Path) (h : ∀ q ∈ qs, fs.get q = some .dir) :
    fs.mkdirs qs = .ok fs := by
  induction qs with
  | nil => rfl
  | cons q qs ih =>
    simp only [FS.mkdirs, h q (List.mem_cons_self _ _)]
    exact ih (fun q' hq' => h q' (List.mem_cons_of_mem _ hq'))

/-- A path whose prefixes are all directories is a directory for `os.Stat`. -/
theorem FS.Stat_of_dirs {fs : FS} {p : Path} (h : ∀ q ∈ p.inits, fs.get q = some .dir) :
    fs.Stat p = .ok .dir := by
  have hnb : fs.blocked p = false := by
    rw [Bool.eq_false_iff]
    intro hb
    obtain ⟨q, c, hpre, -, hq⟩ := (FS.blocked_iff fs p).mp hb
    rw [h q ((List.mem_inits _ _).mpr hpre)] at hq
    cases hq
  unfold FS.Stat
  rw [hnb, h p ((List.mem_inits _ _).mpr (List.prefix_refl _))]
  rfl

/-- The call `mkdirs` does not change which paths lie below a regular file. -/
theorem FS.mkdirs_blocked {fs fs1 : FS} {qs : List Path} (h : fs.mkdirs qs = .ok fs1)
    (p : Path) : fs1.blocked p = fs.blocked p := by
  rw [Bool.eq_iff_iff, FS.blocked_iff, FS.blocked_iff]
  constructor
  · rintro ⟨q, c, h1, h2, h3⟩
    exact ⟨q, c, h1, h2, (FS.mkdirs_file_iff h q c).mp h3⟩
  · rintro ⟨q, c, h1, h2, h3⟩
    exact ⟨q, c, h1, h2, (FS.mkdirs_file_iff h q c).mpr h3⟩

theorem main_go_not_below_pb (cwd : Path) : ¬ cwd ++ ["main.go"] <+: cwd ++ ["pb"] := by
  intro h
  have := List.IsPrefix.eq_of_length h (by simp)
  have := List.append_cancel_left this
  exact absurd this (by decide)

/-- Creating the schema directory does not change the application root. -/
theorem appRootOf_after_mkdirs {fs fs1 : FS} {cwd : Path}
    (h1 : fs.MkdirAll (appRootOf cwd fs ++ ["pb"]) = .ok fs1) :
    appRootOf cwd fs1 = appRootOf cwd fs := by
  have hget : fs1.get (cwd ++ ["main.go"]) = fs.get (cwd ++ ["main.go"]) := by
    rcases FS.mkdirs_get h1 (cwd ++ ["main.go"]) with h | ⟨-, hmem, -⟩
    · exact h
    · rw [List.mem_inits] at hmem
      unfold appRootOf at hmem
      split at hmem
      · exact absurd (mem_of_isPrefix hmem (by simp)) main_go_not_in_pb_dir
      · exact absurd hmem (main_go_not_below_pb cwd)
  have hstat : fs1.Stat (cwd ++ ["main.go"]) = fs.Stat (cwd ++ ["main.go"]) := by
    unfold FS.Stat
    rw [FS.mkdirs_blocked h1, hget]
  unfold appRootOf
  rw [resolve_main_go, hstat]

/-- Writing a file at a path other than `main.go` of the working directory does
not change the application root. -/
theorem appRootOf_after_write {fs fs1 fs2 : FS} {cwd p : Path} {content : String}
    (hp : p ≠ cwd ++ ["main.go"]) (hwf : fs.WellFormed) (hcwd : fs.Stat cwd = .ok .dir)
    (h1 : fs.MkdirAll (appRootOf cwd fs ++ ["pb"]) = .ok fs1)
    (h2 : fs1.WriteFile p content = .ok fs2) :
    appRootOf cwd fs2 = appRootOf cwd fs := by
  obtain ⟨hp0, hfs2, -, hnd⟩ := FS.WriteFile_ok h2
  rw [← appRootOf_after_mkdirs h1]
  have hget2 : fs2.get (cwd ++ ["main.go"]) = fs1.get (cwd ++ ["main.go"]) := by
    rw [hfs2, FS.get_set_ne _ hp0 _ (Ne.symm hp)]
  have hblk : fs2.blocked (cwd ++ ["main.go"]) = fs1.blocked (cwd ++ ["main.go"]) := by
    rw [Bool.eq_iff_iff, FS.blocked_iff, FS.blocked_iff]
    constructor
    · rintro ⟨q, c, hpre, hne, hq⟩
      by_cases e : q = p
      · exfalso
        have hq2 : q <+: cwd := by
          have := prefix_dropLast hpre hne
          rwa [List.dropLast_concat] at this
        have hdir : fs.get q = some .dir := hwf.dir_above (FS.Stat_ok_dir hcwd).2 hq2
        have : fs1.get q = some .dir := by
          rcases FS.mkdirs_get h1 q with h | ⟨h, -, -⟩
          · rw [h, hdir]
          · rw [hdir] at h; cases h
        exact hnd (e ▸ this)
      · rw [hfs2, FS.get_set_ne _ hp0 _ e] at hq
        exact ⟨q, c, hpre, hne, hq⟩
    · rintro ⟨q, c, hpre, hne, hq⟩
      have e : q ≠ p := by
        intro e
        have hq2 : q <+: cwd := by
          have := prefix_dropLast hpre hne
          rwa [List.dropLast_concat] at this
        have hdir : fs.get q = some .dir := hwf.dir_above (FS.Stat_ok_dir hcwd).2 hq2
        rw [(FS.mkdirs_file_iff h1 q c).mp hq] at hdir
        cases hdir
      exact ⟨q, c, hpre, hne, by rw [hfs2, FS.get_set_ne _ hp0 _ e]; exact hq⟩
  have hstat : fs2.Stat (cwd ++ ["main.go"]) = fs1.Stat (cwd ++ ["main.go"]) := by
    unfold FS.Stat
    rw [hblk, hget2]
  unfold appRootOf
  rw [resolve_main_go, hstat]

theorem FS.set_set (fs : FS) (p : Path) (n : Node) : (fs.set p n).set p n = fs.set p n := by
  simp [FS.set, List.filter_filter]

/-- Writing the same content again leaves the file system as it is. -/
theorem FS.WriteFile_again {fs fs2 : FS} {p : Path} {content : String}
    (h : fs.WriteFile p content = .ok fs2) : fs2.WriteFile p content = .ok fs2 := by
  obtain ⟨hp0, hfs2, hst, -⟩ := FS.WriteFile_ok h
  obtain ⟨hb, hd⟩ := FS.Stat_ok_dir hst
  have hne : p.dropLast ≠ p := by
    intro e
    have := congrArg List.length e
    rw [List.length_dropLast] at this
    have : 0 < p.length := List.length_pos.mpr hp0
    omega
  have hst2 : fs2.Stat p.dropLast = .ok .dir := by
    have hnb : fs2.blocked p.dropLast = false := by
      rw [Bool.eq_false_iff]
      intro hblk
      obtain ⟨q, c, hpre, hneq, hq⟩ := (FS.blocked_iff fs2 _).mp hblk
      have hqp : q ≠ p := by
        intro e
        have h1 := hpre.length_le
        rw [e, List.length_dropLast] at h1
        have : 0 < p.length := List.length_pos.mpr hp0
        omega
      rw [hfs2, FS.get_set_ne _ hp0 _ hqp] at hq
      have : fs.blocked p.dropLast = true := (FS.blocked_iff fs _).mpr ⟨q, c, hpre, hneq, hq⟩
      rw [hb] at this; cases this
    unfold FS.Stat
    rw [hnb, hfs2, FS.get_set_ne _ hp0 _ hne, hd]
    rfl
  have hget : fs2.get p = some (.file content) := by rw [hfs2, FS.get_set_self _ hp0]
  unfold FS.WriteFile
  rw [hst2]
  simp only [hget]
  rw [hfs2, FS.set_set]

/-- C11, amended: over a well-formed file system in which the working directory
exists, for every name and content such that the schema is not saved as `main.go`
of the working directory, `SavePB` called again on the file system the first call
leaves returns the same text (same saved path, byte count and listing) and leaves
the same file system. -/
theorem save_twice_same_as_once (env : Env) (fs : FS) (name content : String)
    (hwf : fs.WellFormed) (hcwd : ∀ cwd, env.getwd = .ok cwd → fs.Stat cwd = .ok .dir)
    (hmain : ∀ cwd, env.getwd = .ok cwd →
      Join (Join (appRootOf cwd fs) ["pb"]) [name] ≠ Join cwd ["main.go"]) :
    SavePB env (SavePB env fs name content).2 name content = SavePB env fs name content := by
  cases hwd : env.getwd with
  | error err => simp [SavePB, hwd]
  | ok cwd =>
    have hp := hmain cwd hwd
    rw [Join_pb, Join_main_go] at hp
    cases h1 : fs.MkdirAll (appRootOf cwd fs ++ ["pb"]) with
    | error err => simp [SavePB, hwd, Join_pb, h1]
    | ok fs1 =>
      have hroot1 := appRootOf_after_mkdirs h1
      have hdirs1 : ∀ q ∈ (appRootOf cwd fs ++ ["pb"]).inits, fs1.get q = some .dir :=
        fun q hq => FS.mkdirs_dir h1 hq
      have hmk1 : fs1.MkdirAll (appRootOf cwd fs ++ ["pb"]) = .ok fs1 :=
        FS.mkdirs_of_dirs _ _ hdirs1
      have hst1 : fs1.Stat (appRootOf cwd fs ++ ["pb"]) = .ok .dir := FS.Stat_of_dirs hdirs1
      cases h2 : fs1.WriteFile (Join (appRootOf cwd fs ++ ["pb"]) [name]) content with
      | error err =>
        have hinner : SavePB env fs name content
            = ("Error saving file " ++ (Join (appRootOf cwd fs ++ ["pb"]) [name]).render
                ++ ": " ++ err, fs1) := by
          simp [SavePB, hwd, Join_pb, h1, hst1, h2]
        rw [hinner]
        simp [SavePB, hwd, Join_pb, hroot1, hmk1, hst1, h2]
      | ok fs2 =>
        obtain ⟨hp0, hfs2, -, hnd⟩ := FS.WriteFile_ok h2
        have hroot2 := appRootOf_after_write hp hwf (hcwd cwd hwd) h1 h2
        have hdirs2 : ∀ q ∈ (appRootOf cwd fs ++ ["pb"]).inits, fs2.get q = some .dir := by
          intro q hq
          have hq1 := hdirs1 q hq
          have hne : q ≠ Join (appRootOf cwd fs ++ ["pb"]) [name] := by
            intro e; exact hnd (e ▸ hq1)
          rw [hfs2, FS.get_set_ne _ hp0 _ hne]
          exact hq1
        have hmk2 : fs2.MkdirAll (appRootOf cwd fs ++ ["pb"]) = .ok fs2 :=
          FS.mkdirs_of_dirs _ _ hdirs2
        have hst2 : fs2.Stat (appRootOf cwd fs ++ ["pb"]) = .ok .dir := FS.Stat_of_dirs hdirs2
        have hw2 := FS.WriteFile_again h2
        have hstP := FS.Stat_after_write h2
        have hfs : (SavePB env fs name content).2 = fs2 := by
          simp only [SavePB, hwd, Join_pb, h1, hst1, h2, hstP]
          split <;> rfl
        rw [hfs]
        simp only [SavePB, hwd, Join_pb, hroot2, hmk2, hst2, hw2, hstP, h1, hst1, h2]

/-- A valid schema name is never saved as `main.go` of the working directory. -/
theorem validSchemaName_not_main_go {name : String} (h : validSchemaName name)
    (root cwd : Path) : Join (Join root ["pb"]) [name] ≠ Join cwd ["main.go"] := by
  rw [Join_pb, Join_validName _ h, Join_main_go]
  intro e
  have := congrArg List.getLast? e
  rw [List.getLast?_concat, List.getLast?_concat] at this
  exact h.plain.2.2.2 (Option.some.inj this)

set_option maxRecDepth 100000 in
/-- C11 as stated fails: in the directory `pb` of the hard-coded root, without a
`main.go`, the first `SavePB("main.go", ...)` saves to `pb/main.go` and so creates
`main.go` in the working directory; the second call takes the working directory
as application root and saves to `pb/pb/main.go`: another saved path and another
final file system. -/
theorem save_twice_differs :
    pbDirFS.WellFormed
      ∧ pbDirFS.Stat (hardcodedRoot ++ ["pb"]) = .ok .dir
      ∧ startsWith (SavePB pbDirEnv pbDirFS "main.go" "package main").1
          "File saved successfully: /Users/fangke/Documents/project/golang/pb-tool/pb-tool/pb/main.go\n"
      ∧ startsWith
          (SavePB pbDirEnv (SavePB pbDirEnv pbDirFS "main.go" "package main").2 "main.go"
            "package main").1
          "File saved successfully: /Users/fangke/Documents/project/golang/pb-tool/pb-tool/pb/pb/main.go\n"
      ∧ (SavePB pbDirEnv pbDirFS "main.go" "package main").2.get
          (hardcodedRoot ++ ["pb", "pb", "main.go"]) = none
      ∧ (SavePB pbDirEnv (SavePB pbDirEnv pbDirFS "main.go" "package main").2 "main.go"
            "package main").2.get (hardcodedRoot ++ ["pb", "pb", "main.go"])
          = some (.file "package main")
      ∧ SavePB pbDirEnv (SavePB pbDirEnv pbDirFS "main.go" "package main").2 "main.go"
            "package main" ≠ SavePB pbDirEnv pbDirFS "main.go" "package main" := by
  decide

/-- C11, amended, on an instance. -/
theorem save_twice_same_as_once_witness :
    demoFS.WellFormed
      ∧ (∀ cwd, demoEnv.getwd = .ok cwd → demoFS.Stat cwd = .ok .dir)
      ∧ (∀ cwd, demoEnv.getwd = .ok cwd →
          Join (Join (appRootOf cwd demoFS) ["pb"]) ["a.proto"] ≠ Join cwd ["main.go"])
      ∧ SavePB demoEnv (SavePB demoEnv demoFS "a.proto" "package demo;").2 "a.proto"
          "package demo;" = SavePB demoEnv demoFS "a.proto" "package demo;" :=
  ⟨by decide, fun cwd h => by cases h; decide,
    fun cwd _ => validSchemaName_not_main_go (by decide) _ _,
    save_twice_same_as_once demoEnv demoFS "a.proto" "package demo;" (by decide)
      (fun cwd h => by cases h; decide)
      (fun cwd _ => validSchemaName_not_main_go (by decide) _ _)⟩

/-! ## The theorems on the sample descriptor and the sample state -/

/-- C12, on an instance: the publish values of the table test. -/
theorem declared_publish_option_is_returned_witness :
    (GetPublishOptionFromMethodName (some exampleDescriptor) "GetExample").1 = true
      ∧ (GetPublishOptionFromMethodName (some exampleDescriptor) "CreateExample").1 = false
      ∧ (GetPublishOptionFromMethodName (some exampleDescriptor) "UpdateExample").1 = true
      ∧ (GetPublishOptionFromMethodName (some exampleDescriptor) "DeleteExample").1 = false
      ∧ (GetPublishOptionFromMethodName (some exampleDescriptor) "ListExamples").1 = true :=
  ⟨declared_publish_option_is_returned exampleDescriptor exampleService
      ⟨"GetExample", some ⟨some true⟩⟩ true (by decide) (by decide) (by decide) (by decide)
      (by decide) rfl,
    declared_publish_option_is_returned exampleDescriptor exampleService
      ⟨"CreateExample", some ⟨some false⟩⟩ false (by decide) (by decide) (by decide) (by decide)
      (by decide) rfl,
    declared_publish_option_is_returned exampleDescriptor exampleService
      ⟨"UpdateExample", some ⟨some true⟩⟩ true (by decide) (by decide) (by decide) (by decide)
      (by decide) rfl,
    declared_publish_option_is_returned exampleDescriptor exampleService
      ⟨"DeleteExample", some ⟨some false⟩⟩ false (by decide) (by decide) (by decide) (by decide)
      (by decide) rfl,
    declared_publish_option_is_returned exampleDescriptor exampleService
      ⟨"ListExamples", some ⟨some true⟩⟩ true (by decide) (by decide) (by decide) (by decide)
      (by decide) rfl⟩

/-- C13, on an instance: an unknown method name and the empty method name. -/
theorem unknown_method_defaults_to_true_witness :
    (∀ s ∈ exampleDescriptor.services, s.name = "ExampleService" →
        ∀ m ∈ s.methods, m.name ≠ "UnknownMethod")
      ∧ (∀ s ∈ exampleDescriptor.services, s.name = "ExampleService" →
        ∀ m ∈ s.methods, m.name ≠ "")
      ∧ (GetPublishOptionFromMethodName (some exampleDescriptor) "UnknownMethod").1 = true
      ∧ (GetPublishOptionFromMethodName (some exampleDescriptor) "").1 = true :=
  ⟨by decide, by decide,
    (unknown_method_defaults_to_true exampleDescriptor "UnknownMethod" (by decide)).1,
    (unknown_method_defaults_to_true exampleDescriptor "" (by decide)).1⟩

/-- C15, on an instance: at the instant 150 the session `t1` has expired and is
removed; the session `t2` stays. -/
theorem expired_session_is_removed_witness :
    mapGet demoApp.sessions "t1" = some ⟨"u1", "t1", 100⟩
      ∧ (GetCurrentUser demoMarshal demoApp demoFS 150 "t1").text
          = "\x7b\"error\":\"Session expired\"\x7d"
      ∧ mapGet (GetCurrentUser demoMarshal demoApp demoFS 150 "t1").app.sessions "t1" = none
      ∧ mapGet (GetCurrentUser demoMarshal demoApp demoFS 150 "t1").app.sessions "t2"
          = mapGet demoApp.sessions "t2" :=
  ⟨by decide,
    ((expired_session_is_removed demoMarshal demoApp demoFS 150 "t1").1 ⟨"u1", "t1", 100⟩
      (by decide) (by decide)).1,
    ((expired_session_is_removed demoMarshal demoApp demoFS 150 "t1").1 ⟨"u1", "t1", 100⟩
      (by decide) (by decide)).2.1,
    ((expired_session_is_removed demoMarshal demoApp demoFS 150 "t1").1 ⟨"u1", "t1", 100⟩
      (by decide) (by decide)).2.2.1 "t2" (by decide)⟩

/-! ## The compiler check when `bin` is a regular file (C7) -/

set_option maxRecDepth 100000 in
/-- C7 fails on the code: in a project in which `bin` is a regular file there is
no project-local `bin/protoc`, and no `protoc` is on the search path, so the
compiler is absent; but `os.Stat` fails with `ENOTDIR`, for which `os.IsNotExist`
is false, so the call does not return the compiler-not-found text: it starts the
three approaches and returns the failure report. -/
theorem compiler_absent_yet_approaches_started :
    binFileFS.WellFormed
      ∧ binFileFS.get ["app", "bin", "protoc"] = none
      ∧ demoEnv.lookPath "protoc" = none
      ∧ binFileFS.Stat ["app", "bin", "protoc"] = .error .ENOTDIR
      ∧ (GenerateGRPC demoEnv failingExec binFileFS "a.proto" "package demo;").trace.map
          (fun i => i.approach) = [.simple, .protoPath, .mOption]
      ∧ startsWith (GenerateGRPC demoEnv failingExec binFileFS "a.proto" "package demo;").report
          (failurePrefix "/app/pb/a.proto")
      ∧ (GenerateGRPC demoEnv failingExec binFileFS "a.proto" "package demo;").report
          ≠ protocNotFound "/app/pb/a.proto" "/app/bin/protoc" := by
  decide

end PbTool
